import Mathlib

/-!
Verification of the party-invitation experience (TypeScript repository).

This file gives a shallow embedding, in Lean 4, of the runtime logic that the
frozen claims C1 to C10 are about:

* the adaptive performance scaler (src/unnamed/part_000, class PerfScaler);
* the gameplay world state machine of
  src/src/scene/world/createMysticGlobeWorld.ts (namespace MysticGlobe below);
* the gameplay world state machine of the sibling variant in
  src/unnamed/part_006 (namespace GlobeV6 below), which drives its physics from
  a boolean thrusting flag instead of tap-accumulated lift;
* the loop-seam crossfade of the procedurally generated ambient buffer
  (src/src/audio/AmbientAudio.ts, createAmbientBuffer);
* the audio load-with-fallback logic (src/src/audio/AmbientAudio.ts);
* the member lists of the world object returned by createMysticGlobeWorld and
  of the world members used by src/src/scene/WinterMysticExperience.ts;
* the startup DOM guard of the entry point (src/unnamed/part_000, main).

Modelling conventions.

* JavaScript numbers are modelled by `ℚ` wherever the source only uses field
  operations, `min`, `max` and comparisons, and by `ℝ` for the audio sample
  data.  Floating point rounding is not modelled; the claims under study are
  about exact algebraic structure (clamping, thresholds, step sizes), not about
  rounding error.
* The transcendental float expressions `Math.exp (-k*dt)` (exponential damping
  in createMysticGlobeWorld.ts) and `Math.pow (0.987, dt*60)` (velocity damping
  in part_006) are modelled by an explicit function parameter (`expd`, `damp`)
  supplied to the update functions.  Theorems assume of this parameter only
  what is true of the real exponential on the relevant domain (positivity,
  and being at most one), so every theorem proved here holds in particular
  for the exact real-exponential instantiation.
* Scene-graph-only effects (mesh positions, rotations, opacities, fog) and the
  randomised escape fly-away direction are not part of the modelled state; no
  claim refers to them.  The world update's `t` argument only feeds such
  visuals, so the embedded `update` takes only `dt`.
-/

set_option maxRecDepth 4000

namespace PartyInvite

/-- Math helper from src/unnamed/part_000 (math.ts): clamp(v, min, max). -/
def clamp (v mn mx : ℚ) : ℚ := max mn (min mx v)

/-- Math helper from src/unnamed/part_000 (math.ts): lerp(a, b, t). -/
def lerp (a b t : ℚ) : ℚ := a + (b - a) * t

/-!
## Performance scaler (src/unnamed/part_000, class PerfScaler)

The class holds the readonly configuration (minPixelRatio, maxPixelRatio) and
the mutable fields lastFrame, lastEval, emaFps, pixelRatio, qualityLevel.  The
onChange callback is modelled by an event log `changes`: every invocation of
onChange appends the reported (pixelRatio, qualityLevel) pair.
-/

structure PerfScaler where
  minPixelRatio : ℚ
  maxPixelRatio : ℚ
  lastFrame : ℚ
  lastEval : ℚ
  emaFps : ℚ
  pixelRatio : ℚ
  qualityLevel : ℚ
  changes : List (ℚ × ℚ)

namespace PerfScaler

/-- Constructor of PerfScaler: normalizes maxPixelRatio to
max(minPixelRatio, maxPixelRatio), starts at the maximal pixel ratio and
quality 1, and fires onChange once. -/
def mk' (minPR maxPR : ℚ) : PerfScaler :=
  let maxN := max minPR maxPR
  { minPixelRatio := minPR
    maxPixelRatio := maxN
    lastFrame := 0
    lastEval := 0
    emaFps := 60
    pixelRatio := maxN
    qualityLevel := 1
    changes := [(maxN, 1)] }

/-- PerfScaler.frame(nowSeconds), lines 36-71 of src/unnamed/part_000. -/
def frame (s : PerfScaler) (now : ℚ) : PerfScaler :=
  if s.lastFrame = 0 then
    { s with lastFrame := now, lastEval := now }
  else
    let dt := max 0.001 (now - s.lastFrame)
    let fps := 1 / dt
    let ema := lerp s.emaFps fps 0.08
    let s1 : PerfScaler := { s with lastFrame := now, emaFps := ema }
    if now - s1.lastEval < 2 then s1
    else
      let s2 : PerfScaler := { s1 with lastEval := now }
      let next0 := if ema < 48 then max s2.minPixelRatio (s2.pixelRatio - 0.15) else s2.pixelRatio
      let next := if 57 < ema then min s2.maxPixelRatio (s2.pixelRatio + 0.1) else next0
      let q := clamp ((next - s2.minPixelRatio) /
          (if s2.maxPixelRatio - s2.minPixelRatio = 0 then 1 else s2.maxPixelRatio - s2.minPixelRatio)) 0 1
      let nextQuality := 0.25 + 0.75 * q
      if 0.001 < |next - s2.pixelRatio| then
        { s2 with pixelRatio := next, qualityLevel := nextQuality,
                  changes := s2.changes ++ [(next, nextQuality)] }
      else s2

/-- Folding frame over a list of timestamps (one requestAnimationFrame call per
timestamp). -/
def run (s : PerfScaler) (ts : List ℚ) : PerfScaler := ts.foldl frame s

/-- The bounds invariant claimed for the scaler: pixel ratio within the
configured bounds, quality level within [0.25, 1]. -/
def Inv (s : PerfScaler) : Prop :=
  s.minPixelRatio ≤ s.pixelRatio ∧ s.pixelRatio ≤ s.maxPixelRatio ∧
    0.25 ≤ s.qualityLevel ∧ s.qualityLevel ≤ 1

instance : DecidablePred Inv := fun s => by unfold Inv; infer_instance

/-- The exponential moving average step for a constant measured FPS of 30
(dt = 1/30 s, fps = 30): this is exactly what one frame call does to emaFps
when consecutive timestamps are 1/30 apart. -/
def ema30Step (e : ℚ) : ℚ := lerp e 30 0.08

/-- Iterated constant-30-FPS EMA updates. -/
def ema30Iter : ℕ → ℚ → ℚ
  | 0, e => e
  | Nat.succ n, e => ema30Iter n (ema30Step e)

/-- The EMA step for a constant measured FPS of 60 (dt = 1/60 s). -/
def ema60Step (e : ℚ) : ℚ := lerp e 60 0.08

/-- Iterated constant-60-FPS EMA updates. -/
def ema60Iter : ℕ → ℚ → ℚ
  | 0, e => e
  | Nat.succ n, e => ema60Iter n (ema60Step e)

/-- The emaFps value a non-first frame call computes before deciding the
evaluation (lines 45-48 of the source). -/
def emaNext (s : PerfScaler) (now : ℚ) : ℚ :=
  lerp s.emaFps (1 / max 0.001 (now - s.lastFrame)) 0.08

end PerfScaler

/-!
## Game phase enumeration

Both world variants declare type GameState = "idle" | "playing" | "escape" |
"gameover".
-/

inductive GameState where
  | idle
  | playing
  | escape
  | gameover
deriving DecidableEq, Repr

/-!
## World variant of src/src/scene/world/createMysticGlobeWorld.ts

The closure-captured gameplay variables of createMysticGlobeWorld (lines
461-516 and 601-616 of the file) that the claims are about.  Scene-graph
objects are omitted (see the header comment).
-/

structure MysticGlobeState where
  state : GameState
  playElapsed : ℚ
  gameOverElapsed : ℚ
  escapeElapsed : ℚ
  escapeCharge : ℚ
  didEscape : Bool
  lift : ℚ
  liftDecayHold : ℚ
  enginePulse : ℚ
  y : ℚ
  yVel : ℚ
  targetAltitude : ℚ
  smoothPitch : ℚ
  planetPlayDrop : ℚ

namespace MysticGlobe

/-- baseY = 1.25. -/
def baseY : ℚ := 1.25

/-- playerYMin = baseY - 0.55. -/
def playerYMin : ℚ := baseY - 0.55

/-- playerYMax = baseY + 5.1. -/
def playerYMax : ℚ := baseY + 5.1

/-- softCeilingY = baseY + 3.85. -/
def softCeilingY : ℚ := baseY + 3.85

/-- recenter(), lines 543-554: resets the kinematic and lift/charge scalars and
puts the player back at the baseline altitude.  (syncPlayerPose(0) only writes
scene-graph poses from the already-reset scalars.) -/
def recenter (s : MysticGlobeState) : MysticGlobeState :=
  { s with y := baseY, yVel := 0, lift := 0, liftDecayHold := 0, enginePulse := 0,
           targetAltitude := baseY, planetPlayDrop := 0, escapeCharge := 0, smoothPitch := 0 }

/-- start(), lines 519-541 (the scene-graph resets are omitted). -/
def start (s : MysticGlobeState) : MysticGlobeState :=
  recenter { s with state := GameState.playing, playElapsed := 0, gameOverElapsed := 0,
                    escapeElapsed := 0, escapeCharge := 0, didEscape := false, lift := 0,
                    liftDecayHold := 0, enginePulse := 0, targetAltitude := baseY,
                    planetPlayDrop := 0 }

/-- flap(), lines 556-563. -/
def flap (s : MysticGlobeState) : MysticGlobeState :=
  if s.state = GameState.playing then
    { s with lift := clamp (s.lift + 0.22) 0 1, liftDecayHold := 0.35, enginePulse := 1 }
  else s

/-- triggerGameOver(), lines 565-569. -/
def triggerGameOver (s : MysticGlobeState) : MysticGlobeState :=
  if s.state = GameState.playing then
    { s with state := GameState.gameover, gameOverElapsed := 0 }
  else s

/-- triggerEscape(), lines 571-588 (the randomized fly-away end point and the
scene-graph writes are omitted; targetAltitude is kept since recenter and the
pose smoothing read it). -/
def triggerEscape (s : MysticGlobeState) : MysticGlobeState :=
  if s.state = GameState.playing then
    { s with state := GameState.escape, escapeElapsed := 0, escapeCharge := 0,
             didEscape := true,
             targetAltitude := baseY + max 0 (playerYMax - baseY - 0.25) }
  else s

/-- Lines 622-624 of update: the planet-drop follower
planetPlayDrop = lerp(planetPlayDrop, dropTarget, 1 - exp(-dt*3.2)).
expd models x ↦ Math.exp (-x). -/
def dropStep (expd : ℚ → ℚ) (s : MysticGlobeState) (dt : ℚ) : MysticGlobeState :=
  let dropTarget : ℚ :=
    if s.state = GameState.playing ∨ s.state = GameState.escape then 0.42 else 0
  { s with planetPlayDrop := lerp s.planetPlayDrop dropTarget (1 - expd (dt * 3.2)) }

/-- Lines 645-648 of update: lift decay (0.08 per second while the decay hold
is still running, 0.24 afterwards) and engine pulse decay. -/
def liftStep (s : MysticGlobeState) (dt : ℚ) : MysticGlobeState :=
  let hold := if 0 < s.liftDecayHold then max 0 (s.liftDecayHold - dt) else s.liftDecayHold
  let decay : ℚ := if 0 < hold then 0.08 else 0.24
  { s with liftDecayHold := hold, lift := max 0 (s.lift - decay * dt),
           enginePulse := max 0 (s.enginePulse - dt * 3.0) }

/-- Lines 650-672 of update: spring-follow altitude physics with floor clamp,
soft ceiling deceleration and hard ceiling clamp.  The velocity damping
Math.exp(-8.5*dt) is expd (8.5*dt). -/
def physicsStep (expd : ℚ → ℚ) (s : MysticGlobeState) (dt : ℚ) : MysticGlobeState :=
  let altitudeRange := max 0 (playerYMax - baseY - 0.32)
  let targetY := baseY + clamp (s.lift * altitudeRange) 0 altitudeRange
  let yVel1 := s.yVel + (targetY - s.y) * 16 * dt
  let yVel2 := yVel1 * expd (8.5 * dt)
  let y1 := s.y + yVel2 * dt
  let y2 := if y1 ≤ playerYMin then playerYMin else y1
  let yVel3 := if y1 ≤ playerYMin then max 0 yVel2 else yVel2
  let yVel4 :=
    if softCeilingY ≤ y2 then
      yVel3 + (-7.2 * clamp ((y2 - softCeilingY) / max (1/1000000) (playerYMax - softCeilingY)) 0 1) * dt
    else yVel3
  let y3 := if playerYMax ≤ y2 then playerYMax else y2
  let yVel5 := if playerYMax ≤ y2 then min 0 yVel4 else yVel4
  { s with targetAltitude := targetY, y := y3, yVel := yVel5 }

/-- Lines 674-680 of update: the escape charge accrues by dt while the decayed
lift is at least 0.92 and otherwise decays at 2.6 per second (floored at 0). -/
def chargeStep (s : MysticGlobeState) (dt : ℚ) : MysticGlobeState :=
  if 0.92 ≤ s.lift then { s with escapeCharge := s.escapeCharge + dt }
  else { s with escapeCharge := max 0 (s.escapeCharge - dt * 2.6) }

/-- The playing branch of update (lines 641-685): elapsed time, lift decay,
physics, charge accrual, escape trigger at charge 0.85, 90 s fail-safe. -/
def playingStep (expd : ℚ → ℚ) (s : MysticGlobeState) (dt : ℚ) : MysticGlobeState :=
  let s1 := { s with playElapsed := s.playElapsed + dt }
  let s2 := liftStep s1 dt
  let s3 := physicsStep expd s2 dt
  let s4 := chargeStep s3 dt
  let s5 := if 0.85 ≤ s4.escapeCharge then triggerEscape s4 else s4
  if 90 ≤ s5.playElapsed then triggerGameOver s5 else s5

/-- syncPlayerPose (lines 590-614), restricted to its only persistent effect:
the smoothPitch follower.  The followRate exponential Math.exp(-dt*rate) is
expd (dt*rate). -/
def syncPose (expd : ℚ → ℚ) (s : MysticGlobeState) (dt : ℚ) : MysticGlobeState :=
  let climbIndicator := clamp (s.yVel * 0.6 + (s.targetAltitude - s.y) * 1.8) (-3.5) 3.5
  let targetPitch := clamp (climbIndicator * 0.12) (-0.32) 0.45
  let followRate : ℚ := if s.smoothPitch < targetPitch then 9.0 else 5.0
  let follow := if 0 < dt then 1 - expd (dt * followRate) else 1
  { s with smoothPitch := lerp s.smoothPitch targetPitch follow }

/-- The escape branch of update (lines 689-745): the eased fly-away animation
lasts escapeDuration = 3.2 s, after which the state becomes gameover. -/
def escapeStep (s : MysticGlobeState) (dt : ℚ) : MysticGlobeState :=
  let e := s.escapeElapsed + dt
  let u := clamp (e / 3.2) 0 1
  if 1 ≤ u then { s with escapeElapsed := e, state := GameState.gameover, gameOverElapsed := 0 }
  else { s with escapeElapsed := e }

/-- The gameover branch of update (lines 747-778): only gameOverElapsed is
persistent state; the drop/reveal animation is scene-graph only. -/
def gameoverStep (s : MysticGlobeState) (dt : ℚ) : MysticGlobeState :=
  { s with gameOverElapsed := s.gameOverElapsed + dt }

/-- The guarded playing branch: if (state === "playing") { ... } (line 641). -/
def stepPlaying (expd : ℚ → ℚ) (s : MysticGlobeState) (dt : ℚ) : MysticGlobeState :=
  if s.state = GameState.playing then playingStep expd s dt else s

/-- The guarded pose sync: if (state === "playing") syncPlayerPose(dt)
(line 687). -/
def stepSync (expd : ℚ → ℚ) (s : MysticGlobeState) (dt : ℚ) : MysticGlobeState :=
  if s.state = GameState.playing then syncPose expd s dt else s

/-- The guarded escape branch: if (state === "escape") { ... } (line 689). -/
def stepEscape (s : MysticGlobeState) (dt : ℚ) : MysticGlobeState :=
  if s.state = GameState.escape then escapeStep s dt else s

/-- The guarded gameover branch: if (state === "gameover") { ... } (line 747). -/
def stepGameover (s : MysticGlobeState) (dt : ℚ) : MysticGlobeState :=
  if s.state = GameState.gameover then gameoverStep s dt else s

/-- update(dt, t), lines 618-789.  The four state-conditional branches run in
source order on the mutable state, so a later branch observes a state set by an
earlier one in the same call (playing can cascade into escape and, for a huge
dt, further into gameover within one call). -/
def update (expd : ℚ → ℚ) (s : MysticGlobeState) (dt : ℚ) : MysticGlobeState :=
  stepGameover (stepEscape (stepSync expd (stepPlaying expd (dropStep expd s dt) dt) dt) dt) dt

/-- Iterated update over a list of frame deltas. -/
def updates (expd : ℚ → ℚ) (s : MysticGlobeState) (dts : List ℚ) : MysticGlobeState :=
  dts.foldl (update expd) s

/-- The decayed lift value that the charge test of a given frame observes
(the lift after liftStep of that frame). -/
def liftAfter (s : MysticGlobeState) (dt : ℚ) : ℚ := (liftStep s dt).lift

/-- Whether a frame with delta dt counts as above-threshold for the escape
charge: the frame runs the playing branch and its decayed lift reaches the
escapeLift threshold 0.92. -/
def aboveFrame (s : MysticGlobeState) (dt : ℚ) : Prop :=
  s.state = GameState.playing ∧ 0.92 ≤ liftAfter s dt

instance : ∀ s dt, Decidable (aboveFrame s dt) := fun s dt => by
  unfold aboveFrame; infer_instance

/-- The escape charge value computed by the playing branch of one update call
(before the escape trigger possibly resets it). -/
def chargeAfter (s : MysticGlobeState) (dt : ℚ) : ℚ :=
  if 0.92 ≤ liftAfter s dt then s.escapeCharge + dt else max 0 (s.escapeCharge - dt * 2.6)

/-- Total above-threshold time accumulated by a scripted sequence of frame
deltas (only frames whose playing branch sees the lift at or above the
threshold count). -/
def aboveTime (expd : ℚ → ℚ) : MysticGlobeState → List ℚ → ℚ
  | _, [] => 0
  | s, dt :: r =>
    (if aboveFrame s dt then dt else 0) + aboveTime expd (update expd s dt) r

end MysticGlobe

/-!
## World variant of src/unnamed/part_006

Same file structure as createMysticGlobeWorld.ts but with direct
thrust-vs-gravity velocity physics driven by a boolean thrusting flag
(setThrusting), an altitude-based escape threshold and shorter timings.
-/

structure GlobeV6State where
  state : GameState
  playElapsed : ℚ
  gameOverElapsed : ℚ
  escapeElapsed : ℚ
  escapeCharge : ℚ
  didEscape : Bool
  thrusting : Bool
  velY : ℚ
  y : ℚ
  flapKick : ℚ

namespace GlobeV6

/-- baseY = 1.25. -/
def baseY : ℚ := 1.25

/-- playerYMin = baseY - 0.55. -/
def playerYMin : ℚ := baseY - 0.55

/-- playerYMax = baseY + 3.1. -/
def playerYMax : ℚ := baseY + 3.1

/-- escapeY = baseY + 2.45 (line 548). -/
def escapeY : ℚ := baseY + 2.45

/-- setThrusting(next), lines 459-461. -/
def setThrusting (s : GlobeV6State) (next : Bool) : GlobeV6State :=
  { s with thrusting := next }

/-- recenter(), lines 463-468. -/
def recenter (s : GlobeV6State) : GlobeV6State :=
  { s with velY := 0, y := baseY, escapeCharge := 0 }

/-- start(), lines 439-457 (scene-graph resets omitted). -/
def start (s : GlobeV6State) : GlobeV6State :=
  recenter { s with state := GameState.playing, playElapsed := 0, gameOverElapsed := 0,
                    flapKick := 0, escapeElapsed := 0, escapeCharge := 0, didEscape := false }

/-- triggerGameOver(), lines 477-481. -/
def triggerGameOver (s : GlobeV6State) : GlobeV6State :=
  if s.state = GameState.playing then
    { s with state := GameState.gameover, gameOverElapsed := 0 }
  else s

/-- triggerEscape(), lines 483-496 (randomized fly-away end point omitted). -/
def triggerEscape (s : GlobeV6State) : GlobeV6State :=
  if s.state = GameState.playing then
    { s with state := GameState.escape, escapeElapsed := 0, escapeCharge := 0, didEscape := true }
  else s

/-- Lines 527-545 of update: hold-to-flap velocity physics.
damp dt models Math.pow (0.987, dt * 60), the frame-rate independent velocity
damping factor. -/
def physicsStep (damp : ℚ → ℚ) (s : GlobeV6State) (dt : ℚ) : GlobeV6State :=
  let accel : ℚ := if s.thrusting then 5.1 else -7.2
  let v1 := clamp (s.velY + accel * dt) (-8.0) 8.0
  let v2 := v1 * damp dt
  let y1 := s.y + v2 * dt
  let y2 := if y1 ≤ playerYMin then playerYMin else y1
  let v3 := if y1 ≤ playerYMin then max 0 v2 else v2
  let y3 := min y2 playerYMax
  { s with playElapsed := s.playElapsed + dt, velY := v3, y := y3,
           flapKick := max 0 (s.flapKick - dt * 6.5) }

/-- Lines 547-553 of update: the escape charge accrues by dt while the updated
altitude is at or above escapeY, and otherwise decays at 2.2 per second. -/
def chargeStep (s : GlobeV6State) (dt : ℚ) : GlobeV6State :=
  if escapeY ≤ s.y then { s with escapeCharge := s.escapeCharge + dt }
  else { s with escapeCharge := max 0 (s.escapeCharge - dt * 2.2) }

/-- The playing branch of update (lines 527-558): physics, charge accrual,
escape trigger at charge 0.15, 20 s fail-safe. -/
def playingStep (damp : ℚ → ℚ) (s : GlobeV6State) (dt : ℚ) : GlobeV6State :=
  let s1 := physicsStep damp s dt
  let s2 := chargeStep s1 dt
  let s3 := if 0.15 ≤ s2.escapeCharge then triggerEscape s2 else s2
  if 20 ≤ s3.playElapsed then triggerGameOver s3 else s3

/-- The escape branch of update (lines 562-587): escapeDuration = 1.05 s. -/
def escapeStep (s : GlobeV6State) (dt : ℚ) : GlobeV6State :=
  let e := s.escapeElapsed + dt
  let u := clamp (e / 1.05) 0 1
  if 1 ≤ u then { s with escapeElapsed := e, state := GameState.gameover, gameOverElapsed := 0 }
  else { s with escapeElapsed := e }

/-- The gameover branch of update (lines 589-620): only gameOverElapsed is
persistent state. -/
def gameoverStep (s : GlobeV6State) (dt : ℚ) : GlobeV6State :=
  { s with gameOverElapsed := s.gameOverElapsed + dt }

/-- update(dt, t), lines 515-631 of src/unnamed/part_006, with the branches
chained in source order. -/
def update (damp : ℚ → ℚ) (s : GlobeV6State) (dt : ℚ) : GlobeV6State :=
  let s1 := if s.state = GameState.playing then playingStep damp s dt else s
  let s2 := if s1.state = GameState.escape then escapeStep s1 dt else s1
  if s2.state = GameState.gameover then gameoverStep s2 dt else s2

end GlobeV6

/-!
## Loop-seam crossfade of the generated ambient buffer
(src/src/audio/AmbientAudio.ts, createAmbientBuffer, lines 278-436)

Audio samples are real numbers; a channel is a function from sample index to
sample value.  The seam loop (lines 422-432) writes, for each i < seam, the
equal-power mix m of data[i] and data[length - seam + i] to both positions.
-/

/-- JavaScript Math.round for the nonnegative arguments used here:
round half up. -/
def jsRound (q : ℚ) : ℤ := Int.floor (q + 1/2)

/-- step16Samples = Math.max(1, Math.round((sr * 60) / (bpm * 4))) with
bpm = 155 (lines 281-283). -/
def step16Samples (sr : ℕ) : ℕ := max 1 (jsRound ((sr * 60 : ℚ) / (155 * 4))).toNat

/-- Total sample length of the generated buffer: 16 steps per bar, 8 bars
(lines 282-285 with bars = 8 from line 455). -/
def ambientLength (sr : ℕ) : ℕ := 16 * 8 * step16Samples sr

/-- seam = Math.max(1, Math.min(length, Math.floor(sr * 0.05))) (line 291). -/
def ambientSeam (sr : ℕ) : ℕ :=
  max 1 (min (ambientLength sr) (Int.floor ((sr : ℚ) * 0.05)).toNat)

/-- The equal-power fade-in weight sin(a * π/2) with a = i / max(1, seam-1)
(lines 424-425). -/
noncomputable def xfadeWeightIn (seam i : ℕ) : ℝ :=
  Real.sin (((i : ℝ) / max 1 ((seam : ℝ) - 1)) * (Real.pi / 2))

/-- The equal-power fade-out weight cos(a * π/2) (line 426). -/
noncomputable def xfadeWeightOut (seam i : ℕ) : ℝ :=
  Real.cos (((i : ℝ) / max 1 ((seam : ℝ) - 1)) * (Real.pi / 2))

/-- One iteration of the seam loop (lines 427-431): read both seam positions,
mix, and write the mix back to both. -/
noncomputable def xfadeStep (L seam : ℕ) (d : ℕ → ℝ) (i : ℕ) : ℕ → ℝ :=
  let m := d i * xfadeWeightIn seam i + d (L - seam + i) * xfadeWeightOut seam i
  Function.update (Function.update d i m) (L - seam + i) m

/-- The first n iterations of the seam loop. -/
noncomputable def xfadeLoop (L seam : ℕ) (d : ℕ → ℝ) : ℕ → ℕ → ℝ
  | 0 => d
  | Nat.succ n => xfadeStep L seam (xfadeLoop L seam d n) n

/-- The full crossfade pass over one channel (lines 423-432). -/
noncomputable def crossfade (L seam : ℕ) (d : ℕ → ℝ) : ℕ → ℝ := xfadeLoop L seam d seam

/-!
## Audio file loading with fallback (src/src/audio/AmbientAudio.ts,
tryLoadAudioFile lines 438-447 and loadWithFallback lines 449-456)
-/

/-- Possible outcomes of one fetch-and-decode attempt for an audio URL.
Successful decode results are abstracted by an identifier. -/
inductive FetchOutcome where
  | ok (data : ℕ)
  | httpNotOk
  | networkError
  | decodeError
deriving DecidableEq, Repr

/-- The body of tryLoadAudioFile before its catch handler: a network failure or
a decode failure is an exception, a non-ok HTTP response returns null without
an exception. -/
def fetchAndDecode : FetchOutcome → Except String (Option ℕ)
  | FetchOutcome.ok d => Except.ok (some d)
  | FetchOutcome.httpNotOk => Except.ok none
  | FetchOutcome.networkError => Except.error "fetch failed"
  | FetchOutcome.decodeError => Except.error "decodeAudioData failed"

/-- tryLoadAudioFile (lines 438-447): the catch handler turns every exception
into null. -/
def tryLoadAudioFile (o : FetchOutcome) : Option ℕ :=
  match fetchAndDecode o with
  | Except.ok r => r
  | Except.error _ => none

/-- The kind tag returned by loadWithFallback. -/
inductive BufferKind where
  | file
  | generated
deriving DecidableEq, Repr

/-- The buffer returned by loadWithFallback: either a decoded file buffer or
the procedurally generated loop. -/
inductive LoadedBuffer where
  | fromFile (data : ℕ)
  | generatedLoop
deriving DecidableEq, Repr

/-- loadWithFallback (lines 449-456): try the env-configured URL if present,
then the bundled /ambient.mp3, and fall back to the generated loop.  The
envOutcome argument is none when no VITE_AMBIENT_URL is configured. -/
def loadWithFallback (envOutcome : Option FetchOutcome) (fileOutcome : FetchOutcome) :
    LoadedBuffer × BufferKind :=
  let envTry : Option ℕ :=
    match envOutcome with
    | some o => tryLoadAudioFile o
    | none => none
  let file : Option ℕ :=
    match envTry with
    | some d => some d
    | none => tryLoadAudioFile fileOutcome
  match file with
  | some d => (LoadedBuffer.fromFile d, BufferKind.file)
  | none => (LoadedBuffer.generatedLoop, BufferKind.generated)

/-!
## World object members (claim C9)

The keys of the object returned by createMysticGlobeWorld (lines 831-848 of
src/src/scene/world/createMysticGlobeWorld.ts) and the world members read or
invoked on this.world by src/src/scene/WinterMysticExperience.ts.
-/

/-- The exact key list of the return object of createMysticGlobeWorld. -/
def mysticGlobeWorldMembers : List String :=
  ["orbitCenter", "posterTarget", "posterWidth", "posterHeight", "recenterCameraPos",
   "playerYMin", "playerYMax", "shouldUsePostFX", "setQualityLevel", "start", "flap",
   "recenter", "triggerGameOver", "getPlayerPosition", "update", "dispose"]

/-- The world members accessed by WinterMysticExperience (lines 170, 187, 230,
231, 294, 328, 354, 451, 466, 467, 471, 474, 482, 494, 496, 511, 512, 625, 635,
636, 659, 660, 766, 767, 773). -/
def experienceWorldMemberUses : List String :=
  ["shouldUsePostFX", "setQualityLevel", "setThrusting", "recenter", "dispose", "flap",
   "start", "getPlayerPosition", "playerYMin", "playerYMax", "update", "recenterCameraPos",
   "posterTarget", "orbitCenter", "posterHeight", "posterWidth"]

/-!
## Startup DOM guard (src/unnamed/part_000, lines 76-84)
-/

/-- The app object built by createApp (./runtime/createApp is not part of the
sources; for this claim only the fact that construction happens after the
guard matters, so the handles are kept abstractly). -/
structure AppHandles where
  canvas : ℕ
  uiRoot : ℕ
deriving DecidableEq, Repr

/-- createApp({canvas, uiRoot}), abstracted to its handle record. -/
def createApp (canvas uiRoot : ℕ) : AppHandles := ⟨canvas, uiRoot⟩

/-- The startup sequence of src/unnamed/part_000 lines 76-84: query both DOM
nodes (modelled as optional inputs), throw if either is missing, otherwise
construct the app.  Except.error models the synchronous throw. -/
def mainStartup (canvas uiRoot : Option ℕ) : Except String AppHandles :=
  match canvas, uiRoot with
  | some c, some u => Except.ok (createApp c u)
  | _, _ => Except.error "Missing required DOM elements (#scene, #ui-root)."

/-!
## Concrete sample data used by witnesses and counterexamples
-/

/-- A sample damping-factor function: a constant one half, which satisfies the
positivity and at-most-one bounds that the theorems assume of the embedded
Math.exp / Math.pow damping expressions. -/
def halfExp : ℚ → ℚ := fun _ => 1/2

/-- A scaler snapshot with the shipped bounds (minPixelRatio 0.75, the mobile
maxPixelRatio cap 1.5 from WinterMysticExperience.ts line 183-184), a
sustained-60-FPS EMA, one step of raising history left before the ceiling
(0.75 + 7 * 0.1 = 1.45), and an evaluation due on the next frame. -/
def c5NearCeilState : PerfScaler :=
  { minPixelRatio := 0.75, maxPixelRatio := 1.5, lastFrame := 10, lastEval := 8, emaFps := 60,
    pixelRatio := 1.45, qualityLevel := 1, changes := [] }

/-- A playing-state snapshot of createMysticGlobeWorld with full lift and a
long lift-decay hold, used to drive a concrete escape trace. -/
def c1TraceState : MysticGlobeState :=
  { state := GameState.playing, playElapsed := 0, gameOverElapsed := 0, escapeElapsed := 0,
    escapeCharge := 0, didEscape := false, lift := 1, liftDecayHold := 100, enginePulse := 0,
    y := MysticGlobe.baseY, yVel := 0, targetAltitude := MysticGlobe.baseY, smoothPitch := 0,
    planetPlayDrop := 0 }

/-- A playing-state snapshot with zero lift (below the escape threshold) and a
partially accumulated escape charge of one half. -/
def c2BelowState : MysticGlobeState :=
  { state := GameState.playing, playElapsed := 0, gameOverElapsed := 0, escapeElapsed := 0,
    escapeCharge := 1/2, didEscape := false, lift := 0, liftDecayHold := 0, enginePulse := 0,
    y := MysticGlobe.baseY, yVel := 0, targetAltitude := MysticGlobe.baseY, smoothPitch := 0,
    planetPlayDrop := 0 }

/-- A playing-state snapshot with zero lift and zero escape charge. -/
def c2FreshState : MysticGlobeState :=
  { state := GameState.playing, playElapsed := 0, gameOverElapsed := 0, escapeElapsed := 0,
    escapeCharge := 0, didEscape := false, lift := 0, liftDecayHold := 0, enginePulse := 0,
    y := MysticGlobe.baseY, yVel := 0, targetAltitude := MysticGlobe.baseY, smoothPitch := 0,
    planetPlayDrop := 0 }

/-!
# Theorems

Helper lemmas first, then one theorem per claim (with witnesses and
counterexamples where required).
-/

theorem le_clamp (v mn mx : ℚ) : mn ≤ clamp v mn mx := le_max_left _ _

theorem clamp_le {mn mx : ℚ} (v : ℚ) (h : mn ≤ mx) : clamp v mn mx ≤ mx :=
  max_le h (min_le_left _ _)

theorem quality_lb (x : ℚ) : (0.25 : ℚ) ≤ 0.25 + 0.75 * clamp x 0 1 := by
  have := le_clamp x 0 1
  linarith

theorem quality_ub (x : ℚ) : (0.25 : ℚ) + 0.75 * clamp x 0 1 ≤ 1 := by
  have := @clamp_le 0 1 x (by norm_num)
  linarith

namespace PerfScaler

theorem inv_mk' (minPR maxPR : ℚ) : Inv (mk' minPR maxPR) := by
  unfold Inv mk'
  refine ⟨le_max_left _ _, le_refl _, by norm_num, by norm_num⟩

theorem frame_config (s : PerfScaler) (now : ℚ) :
    (frame s now).minPixelRatio = s.minPixelRatio ∧
      (frame s now).maxPixelRatio = s.maxPixelRatio := by
  unfold frame
  dsimp only
  split_ifs <;> exact ⟨rfl, rfl⟩

theorem frame_pixelRatio_cases (s : PerfScaler) (now : ℚ) :
    (frame s now).pixelRatio = s.pixelRatio ∨
      (frame s now).pixelRatio = max s.minPixelRatio (s.pixelRatio - 0.15) ∨
      (frame s now).pixelRatio = min s.maxPixelRatio (s.pixelRatio + 0.1) := by
  unfold frame
  dsimp only
  split_ifs <;>
    first
      | exact Or.inl rfl
      | exact Or.inr (Or.inl rfl)
      | exact Or.inr (Or.inr rfl)

theorem frame_quality_cases (s : PerfScaler) (now : ℚ) :
    (frame s now).qualityLevel = s.qualityLevel ∨
      ∃ x, (frame s now).qualityLevel = 0.25 + 0.75 * clamp x 0 1 := by
  unfold frame
  dsimp only
  split_ifs <;>
    first
      | exact Or.inl rfl
      | exact Or.inr ⟨_, rfl⟩

theorem inv_frame {s : PerfScaler} (h : Inv s) (now : ℚ) : Inv (frame s now) := by
  obtain ⟨h1, h2, h3, h4⟩ := h
  have hmm : s.minPixelRatio ≤ s.maxPixelRatio := h1.trans h2
  obtain ⟨hc1, hc2⟩ := frame_config s now
  refine ⟨?_, ?_, ?_, ?_⟩
  · rw [hc1]
    rcases frame_pixelRatio_cases s now with hp | hp | hp <;> rw [hp]
    · exact h1
    · exact le_max_left _ _
    · exact le_min hmm (by linarith)
  · rw [hc2]
    rcases frame_pixelRatio_cases s now with hp | hp | hp <;> rw [hp]
    · exact h2
    · exact max_le hmm (by linarith)
    · exact min_le_left _ _
  · rcases frame_quality_cases s now with hq | ⟨x, hq⟩ <;> rw [hq]
    · exact h3
    · exact quality_lb x
  · rcases frame_quality_cases s now with hq | ⟨x, hq⟩ <;> rw [hq]
    · exact h4
    · exact quality_ub x

theorem inv_run {s : PerfScaler} (h : Inv s) (ts : List ℚ) : Inv (run s ts) := by
  induction ts generalizing s with
  | nil => exact h
  | cons t r ih => exact ih (inv_frame h t)

end PerfScaler

/-- C4: for every configuration and every sequence of timestamps fed to the
performance scaler's frame function, the maintained pixel ratio stays within
[minPixelRatio, maxPixelRatio] (the constructor-normalized bounds of the
scaler) and the derived quality level stays within [0.25, 1]. -/
theorem c4_scaler_bounds (minPR maxPR : ℚ) (ts : List ℚ) :
    (PerfScaler.run (PerfScaler.mk' minPR maxPR) ts).minPixelRatio ≤
        (PerfScaler.run (PerfScaler.mk' minPR maxPR) ts).pixelRatio ∧
      (PerfScaler.run (PerfScaler.mk' minPR maxPR) ts).pixelRatio ≤
        (PerfScaler.run (PerfScaler.mk' minPR maxPR) ts).maxPixelRatio ∧
      0.25 ≤ (PerfScaler.run (PerfScaler.mk' minPR maxPR) ts).qualityLevel ∧
      (PerfScaler.run (PerfScaler.mk' minPR maxPR) ts).qualityLevel ≤ 1 :=
  PerfScaler.inv_run (PerfScaler.inv_mk' minPR maxPR) ts

namespace GlobeV6

theorem chargeStep_kin (s : GlobeV6State) (dt : ℚ) :
    (chargeStep s dt).y = s.y ∧ (chargeStep s dt).velY = s.velY ∧
      (chargeStep s dt).thrusting = s.thrusting := by
  unfold chargeStep
  split_ifs <;> exact ⟨rfl, rfl, rfl⟩

theorem triggerEscape_kin (s : GlobeV6State) :
    (triggerEscape s).y = s.y ∧ (triggerEscape s).velY = s.velY ∧
      (triggerEscape s).thrusting = s.thrusting := by
  unfold triggerEscape
  split_ifs <;> exact ⟨rfl, rfl, rfl⟩

theorem triggerGameOver_kin (s : GlobeV6State) :
    (triggerGameOver s).y = s.y ∧ (triggerGameOver s).velY = s.velY ∧
      (triggerGameOver s).thrusting = s.thrusting := by
  unfold triggerGameOver
  split_ifs <;> exact ⟨rfl, rfl, rfl⟩

theorem escapeStep_kin (s : GlobeV6State) (dt : ℚ) :
    (escapeStep s dt).y = s.y ∧ (escapeStep s dt).velY = s.velY ∧
      (escapeStep s dt).thrusting = s.thrusting := by
  unfold escapeStep
  dsimp only
  split_ifs <;> exact ⟨rfl, rfl, rfl⟩

theorem gameoverStep_kin (s : GlobeV6State) (dt : ℚ) :
    (gameoverStep s dt).y = s.y ∧ (gameoverStep s dt).velY = s.velY ∧
      (gameoverStep s dt).thrusting = s.thrusting :=
  ⟨rfl, rfl, rfl⟩

theorem playingStep_kin (damp : ℚ → ℚ) (s : GlobeV6State) (dt : ℚ) :
    (playingStep damp s dt).y = (physicsStep damp s dt).y ∧
      (playingStep damp s dt).velY = (physicsStep damp s dt).velY ∧
      (playingStep damp s dt).thrusting = (physicsStep damp s dt).thrusting := by
  unfold playingStep
  dsimp only
  obtain ⟨hcy, hcv, hct⟩ := chargeStep_kin (physicsStep damp s dt) dt
  split_ifs <;>
    first
      | exact ⟨hcy, hcv, hct⟩
      | · obtain ⟨hey, hev, het⟩ := triggerEscape_kin (chargeStep (physicsStep damp s dt) dt)
          obtain ⟨hgy, hgv, hgt⟩ := triggerGameOver_kin
            (triggerEscape (chargeStep (physicsStep damp s dt) dt))
          first
            | exact ⟨hgy.trans (hey.trans hcy), hgv.trans (hev.trans hcv), hgt.trans (het.trans hct)⟩
            | exact ⟨hey.trans hcy, hev.trans hcv, het.trans hct⟩
      | · obtain ⟨hgy, hgv, hgt⟩ := triggerGameOver_kin (chargeStep (physicsStep damp s dt) dt)
          exact ⟨hgy.trans hcy, hgv.trans hcv, hgt.trans hct⟩

theorem update_kin_of_playing (damp : ℚ → ℚ) (s : GlobeV6State) (dt : ℚ)
    (h : s.state = GameState.playing) :
    (update damp s dt).y = (physicsStep damp s dt).y ∧
      (update damp s dt).velY = (physicsStep damp s dt).velY ∧
      (update damp s dt).thrusting = (physicsStep damp s dt).thrusting := by
  unfold update
  dsimp only
  rw [if_pos h]
  obtain ⟨hpy, hpv, hpt⟩ := playingStep_kin damp s dt
  split_ifs with h1 h2 h2
  · obtain ⟨hey, hev, het⟩ := escapeStep_kin (playingStep damp s dt) dt
    obtain ⟨hgy, hgv, hgt⟩ := gameoverStep_kin (escapeStep (playingStep damp s dt) dt) dt
    exact ⟨hgy.trans (hey.trans hpy), hgv.trans (hev.trans hpv), hgt.trans (het.trans hpt)⟩
  · obtain ⟨hey, hev, het⟩ := escapeStep_kin (playingStep damp s dt) dt
    exact ⟨hey.trans hpy, hev.trans hpv, het.trans hpt⟩
  · obtain ⟨hgy, hgv, hgt⟩ := gameoverStep_kin (playingStep damp s dt) dt
    exact ⟨hgy.trans hpy, hgv.trans hpv, hgt.trans hpt⟩
  · exact ⟨hpy, hpv, hpt⟩

theorem yMin_le_yMax : playerYMin ≤ playerYMax := by
  unfold playerYMin playerYMax baseY
  norm_num

theorem physicsStep_props (damp : ℚ → ℚ) (s : GlobeV6State) (dt : ℚ)
    (hdamp : 0 < damp dt) (hth : s.thrusting = true) (hdt : 0 < dt)
    (hv : 0 ≤ s.velY) (hymin : playerYMin ≤ s.y) :
    (physicsStep damp s dt).y = min (s.y + (physicsStep damp s dt).velY * dt) playerYMax ∧
      0 < (physicsStep damp s dt).velY ∧
      (physicsStep damp s dt).thrusting = s.thrusting := by
  unfold physicsStep
  dsimp only
  simp only [hth, if_true]
  have hx : 0 < s.velY + 5.1 * dt := by positivity
  have hv1 : 0 < clamp (s.velY + 5.1 * dt) (-8.0) 8.0 := by
    unfold clamp
    have h8 : (0:ℚ) < min 8.0 (s.velY + 5.1 * dt) := lt_min (by norm_num) hx
    calc (0:ℚ) < min 8.0 (s.velY + 5.1 * dt) := h8
      _ ≤ max (-8.0) (min 8.0 (s.velY + 5.1 * dt)) := le_max_right _ _
  have hv2 : 0 < clamp (s.velY + 5.1 * dt) (-8.0) 8.0 * damp dt := mul_pos hv1 hdamp
  have hy1 : s.y < s.y + clamp (s.velY + 5.1 * dt) (-8.0) 8.0 * damp dt * dt := by
    nlinarith
  have hfloor : ¬ (s.y + clamp (s.velY + 5.1 * dt) (-8.0) 8.0 * damp dt * dt ≤ playerYMin) := by
    push_neg
    exact lt_of_le_of_lt hymin hy1
  rw [if_neg hfloor, if_neg hfloor]
  exact ⟨rfl, hv2, trivial⟩

end GlobeV6

/-- C3: in the part_006 world, one playing-state update with thrusting on, a
positive frame delta, a positive damping factor and the kinematic invariants
(nonnegative vertical velocity, altitude within [playerYMin, playerYMax])
strictly raises the altitude while it is below the configured maximum, keeps it
exactly at the maximum once reached, never exceeds the maximum, and preserves
all of the invariants — so along any scripted sequence of positive frame
deltas from the start state (velY = 0, y = baseY) the altitude strictly
increases each step until it reaches playerYMax and is then clamped exactly
there. -/
theorem c3_thrust_altitude_monotone (damp : ℚ → ℚ) (s : GlobeV6State) (dt : ℚ)
    (hdamp : 0 < damp dt) (hstate : s.state = GameState.playing) (hth : s.thrusting = true)
    (hdt : 0 < dt) (hv : 0 ≤ s.velY) (hymin : GlobeV6.playerYMin ≤ s.y)
    (hymax : s.y ≤ GlobeV6.playerYMax) :
    (s.y < GlobeV6.playerYMax → s.y < (GlobeV6.update damp s dt).y) ∧
      (s.y = GlobeV6.playerYMax → (GlobeV6.update damp s dt).y = GlobeV6.playerYMax) ∧
      (GlobeV6.update damp s dt).y ≤ GlobeV6.playerYMax ∧
      0 ≤ (GlobeV6.update damp s dt).velY ∧
      GlobeV6.playerYMin ≤ (GlobeV6.update damp s dt).y ∧
      (GlobeV6.update damp s dt).thrusting = true := by
  obtain ⟨huy, huv, hut⟩ := GlobeV6.update_kin_of_playing damp s dt hstate
  obtain ⟨hpy, hpv, hpt⟩ := GlobeV6.physicsStep_props damp s dt hdamp hth hdt hv hymin
  rw [huy, huv, hut, hpy]
  have hystep : s.y < s.y + (GlobeV6.physicsStep damp s dt).velY * dt := by
    nlinarith [mul_pos hpv hdt]
  refine ⟨?_, ?_, min_le_right _ _, le_of_lt hpv, ?_, hpt.trans hth⟩
  · intro hlt
    exact lt_min hystep hlt
  · intro heq
    exact min_eq_right (by linarith)
  · exact le_min (by linarith) GlobeV6.yMin_le_yMax

/-- Witness for C3: the hypotheses are satisfiable at the concrete start-like
state (playing, thrusting, velY = 0, y = baseY) with dt = 1 and the sample
damping factor one half; the theorem then yields a strict altitude increase. -/
theorem c3_thrust_altitude_monotone_witness :
    let damp : ℚ → ℚ := fun _ => 1/2
    let s : GlobeV6State :=
      { state := GameState.playing, playElapsed := 0, gameOverElapsed := 0, escapeElapsed := 0,
        escapeCharge := 0, didEscape := false, thrusting := true, velY := 0,
        y := GlobeV6.baseY, flapKick := 0 }
    s.y < (GlobeV6.update damp s 1).y :=
  (c3_thrust_altitude_monotone (fun _ => 1/2) _ 1 (by norm_num) rfl rfl (by norm_num)
      (le_refl 0)
      (by unfold GlobeV6.playerYMin GlobeV6.baseY; norm_num)
      (by unfold GlobeV6.playerYMax GlobeV6.baseY; norm_num)).1
    (by unfold GlobeV6.playerYMax GlobeV6.baseY; norm_num)

namespace MysticGlobe

theorem chargeStep_state (x : MysticGlobeState) (dt : ℚ) :
    (chargeStep x dt).state = x.state := by
  unfold chargeStep
  split_ifs <;> rfl

theorem chargeStep_playElapsed (x : MysticGlobeState) (dt : ℚ) :
    (chargeStep x dt).playElapsed = x.playElapsed := by
  unfold chargeStep
  split_ifs <;> rfl

theorem chargeStep_escapeCharge (x : MysticGlobeState) (dt : ℚ) :
    (chargeStep x dt).escapeCharge =
      if 0.92 ≤ x.lift then x.escapeCharge + dt else max 0 (x.escapeCharge - dt * 2.6) := by
  unfold chargeStep
  split_ifs <;> rfl

theorem playingCharge (expd : ℚ → ℚ) (s : MysticGlobeState) (dt : ℚ) :
    (chargeStep (physicsStep expd (liftStep { s with playElapsed := s.playElapsed + dt } dt) dt)
        dt).escapeCharge = chargeAfter s dt := by
  rw [chargeStep_escapeCharge]
  rfl

theorem triggerEscape_char (x : MysticGlobeState) (hx : x.state = GameState.playing) :
    (triggerEscape x).state = GameState.escape ∧ (triggerEscape x).escapeCharge = 0 ∧
      (triggerEscape x).escapeElapsed = 0 ∧ (triggerEscape x).playElapsed = x.playElapsed := by
  unfold triggerEscape
  rw [if_pos hx]
  exact ⟨rfl, rfl, rfl, rfl⟩

theorem triggerGameOver_char (x : MysticGlobeState) (hx : x.state = GameState.playing) :
    (triggerGameOver x).state = GameState.gameover ∧
      (triggerGameOver x).escapeCharge = x.escapeCharge ∧
      (triggerGameOver x).playElapsed = x.playElapsed := by
  unfold triggerGameOver
  rw [if_pos hx]
  exact ⟨rfl, rfl, rfl⟩

theorem triggerGameOver_not_playing (x : MysticGlobeState) (hx : ¬ x.state = GameState.playing) :
    triggerGameOver x = x := by
  unfold triggerGameOver
  exact if_neg hx

theorem escapeStep_escapeCharge (x : MysticGlobeState) (dt : ℚ) :
    (escapeStep x dt).escapeCharge = x.escapeCharge := by
  unfold escapeStep
  dsimp only
  split_ifs <;> rfl

theorem escapeStep_state_cases (x : MysticGlobeState) (dt : ℚ) :
    (escapeStep x dt).state = x.state ∨ (escapeStep x dt).state = GameState.gameover := by
  unfold escapeStep
  dsimp only
  split_ifs
  · exact Or.inr rfl
  · exact Or.inl rfl

theorem escapeStep_state_of_lt (x : MysticGlobeState) (dt : ℚ)
    (hd : x.escapeElapsed + dt < 3.2) : (escapeStep x dt).state = x.state := by
  unfold escapeStep
  dsimp only
  have hlt : clamp ((x.escapeElapsed + dt) / 3.2) 0 1 < 1 := by
    unfold clamp
    refine max_lt (by norm_num) (lt_of_le_of_lt (min_le_right _ _) ?_)
    rw [div_lt_one (by norm_num : (0:ℚ) < 3.2)]
    exact hd
  rw [if_neg (not_le.mpr hlt)]

theorem playingStep_char (expd : ℚ → ℚ) (s : MysticGlobeState) (dt : ℚ)
    (h : s.state = GameState.playing) :
    (0.85 ≤ chargeAfter s dt →
        (playingStep expd s dt).state = GameState.escape ∧
          (playingStep expd s dt).escapeCharge = 0 ∧
          (playingStep expd s dt).escapeElapsed = 0) ∧
      (¬ 0.85 ≤ chargeAfter s dt →
        (playingStep expd s dt).escapeCharge = chargeAfter s dt ∧
          (90 ≤ s.playElapsed + dt → (playingStep expd s dt).state = GameState.gameover) ∧
          (¬ 90 ≤ s.playElapsed + dt → (playingStep expd s dt).state = GameState.playing)) := by
  have hs4state :
      (chargeStep (physicsStep expd (liftStep { s with playElapsed := s.playElapsed + dt } dt) dt)
        dt).state = GameState.playing := by
    rw [chargeStep_state]; exact h
  have hs4charge := playingCharge expd s dt
  have hs4play :
      (chargeStep (physicsStep expd (liftStep { s with playElapsed := s.playElapsed + dt } dt) dt)
        dt).playElapsed = s.playElapsed + dt := by
    rw [chargeStep_playElapsed]; rfl
  unfold playingStep
  dsimp only
  simp only [hs4charge, hs4play]
  constructor
  · intro hch
    rw [if_pos hch]
    obtain ⟨hTs, hTc, hTe, hTp⟩ := triggerEscape_char _ hs4state
    rw [hTp]
    split_ifs with hfs
    · rw [triggerGameOver_not_playing _ (by rw [hTs]; decide)]
      exact ⟨hTs, hTc, hTe⟩
    · exact ⟨hTs, hTc, hTe⟩
  · intro hch
    rw [if_neg hch]
    simp only [hs4play]
    split_ifs with hfs
    · obtain ⟨hGs, hGc, hGp⟩ := triggerGameOver_char _ hs4state
      refine ⟨hGc.trans hs4charge, fun _ => hGs, fun hn => absurd hfs hn⟩
    · exact ⟨hs4charge, fun hc => absurd hc hfs, fun _ => hs4state⟩

theorem stepPlaying_of_playing (expd : ℚ → ℚ) (s : MysticGlobeState) (dt : ℚ)
    (h : s.state = GameState.playing) : stepPlaying expd s dt = playingStep expd s dt :=
  if_pos h

theorem stepPlaying_of_ne (expd : ℚ → ℚ) (s : MysticGlobeState) (dt : ℚ)
    (h : ¬ s.state = GameState.playing) : stepPlaying expd s dt = s :=
  if_neg h

theorem stepSync_state (expd : ℚ → ℚ) (s : MysticGlobeState) (dt : ℚ) :
    (stepSync expd s dt).state = s.state := by
  unfold stepSync
  split_ifs <;> rfl

theorem stepSync_escapeCharge (expd : ℚ → ℚ) (s : MysticGlobeState) (dt : ℚ) :
    (stepSync expd s dt).escapeCharge = s.escapeCharge := by
  unfold stepSync
  split_ifs <;> rfl

theorem stepSync_escapeElapsed (expd : ℚ → ℚ) (s : MysticGlobeState) (dt : ℚ) :
    (stepSync expd s dt).escapeElapsed = s.escapeElapsed := by
  unfold stepSync
  split_ifs <;> rfl

theorem stepEscape_of_escape (s : MysticGlobeState) (dt : ℚ)
    (h : s.state = GameState.escape) : stepEscape s dt = escapeStep s dt :=
  if_pos h

theorem stepEscape_of_ne (s : MysticGlobeState) (dt : ℚ)
    (h : ¬ s.state = GameState.escape) : stepEscape s dt = s :=
  if_neg h

theorem stepGameover_state (s : MysticGlobeState) (dt : ℚ) :
    (stepGameover s dt).state = s.state := by
  unfold stepGameover
  split_ifs <;> rfl

theorem stepGameover_escapeCharge (s : MysticGlobeState) (dt : ℚ) :
    (stepGameover s dt).escapeCharge = s.escapeCharge := by
  unfold stepGameover
  split_ifs <;> rfl

theorem update_state_idle (expd : ℚ → ℚ) (s : MysticGlobeState) (dt : ℚ)
    (h : s.state = GameState.idle) : (update expd s dt).state = GameState.idle := by
  have h0 : (dropStep expd s dt).state = GameState.idle := h
  unfold update
  rw [stepPlaying_of_ne _ _ _ (by rw [h0]; decide)]
  rw [stepEscape_of_ne _ _ (by rw [stepSync_state, h0]; decide)]
  rw [stepGameover_state, stepSync_state]
  exact h0

theorem update_state_gameover (expd : ℚ → ℚ) (s : MysticGlobeState) (dt : ℚ)
    (h : s.state = GameState.gameover) : (update expd s dt).state = GameState.gameover := by
  have h0 : (dropStep expd s dt).state = GameState.gameover := h
  unfold update
  rw [stepPlaying_of_ne _ _ _ (by rw [h0]; decide)]
  rw [stepEscape_of_ne _ _ (by rw [stepSync_state, h0]; decide)]
  rw [stepGameover_state, stepSync_state]
  exact h0

theorem update_char_escape (expd : ℚ → ℚ) (s : MysticGlobeState) (dt : ℚ)
    (h : s.state = GameState.escape) :
    ((update expd s dt).state = GameState.escape ∨
        (update expd s dt).state = GameState.gameover) ∧
      (update expd s dt).escapeCharge = s.escapeCharge := by
  have h0 : (dropStep expd s dt).state = GameState.escape := h
  have h0c : (dropStep expd s dt).escapeCharge = s.escapeCharge := rfl
  unfold update
  rw [stepPlaying_of_ne _ _ _ (by rw [h0]; decide)]
  have hsync : stepSync expd (dropStep expd s dt) dt = dropStep expd s dt := by
    unfold stepSync
    rw [if_neg (by rw [h0]; decide)]
  rw [hsync]
  rw [stepEscape_of_escape _ _ h0]
  rcases escapeStep_state_cases (dropStep expd s dt) dt with hes | hes
  · have hne : ¬ (escapeStep (dropStep expd s dt) dt).state = GameState.gameover := by
      rw [hes, h0]; decide
    unfold stepGameover
    rw [if_neg hne]
    rw [escapeStep_escapeCharge]
    exact ⟨Or.inl (hes.trans h0), h0c⟩
  · rw [stepGameover_state, stepGameover_escapeCharge, escapeStep_escapeCharge]
    exact ⟨Or.inr hes, h0c⟩

theorem update_char_playing (expd : ℚ → ℚ) (s : MysticGlobeState) (dt : ℚ)
    (h : s.state = GameState.playing) :
    ((update expd s dt).state = GameState.playing ∨
        (update expd s dt).state = GameState.escape ∨
        (update expd s dt).state = GameState.gameover) ∧
      ((update expd s dt).state = GameState.escape → 0.85 ≤ chargeAfter s dt) ∧
      ((update expd s dt).state = GameState.playing →
        (update expd s dt).escapeCharge = chargeAfter s dt) ∧
      (0.85 ≤ chargeAfter s dt → dt < 3.2 →
        (update expd s dt).state = GameState.escape ∧ (update expd s dt).escapeCharge = 0) ∧
      (¬ 0.85 ≤ chargeAfter s dt → s.playElapsed + dt < 90 →
        (update expd s dt).state = GameState.playing ∧
          (update expd s dt).escapeCharge = chargeAfter s dt) := by
  have h0 : (dropStep expd s dt).state = GameState.playing := h
  have hca : chargeAfter (dropStep expd s dt) dt = chargeAfter s dt := rfl
  have hpe : (dropStep expd s dt).playElapsed = s.playElapsed := rfl
  obtain ⟨hfire, hnofire⟩ := playingStep_char expd (dropStep expd s dt) dt h0
  rw [hca] at hfire hnofire
  rw [hpe] at hnofire
  have hupd : update expd s dt =
      stepGameover (stepEscape (stepSync expd (playingStep expd (dropStep expd s dt) dt) dt) dt)
        dt := by
    unfold update
    rw [stepPlaying_of_playing _ _ _ h0]
  by_cases hch : 0.85 ≤ chargeAfter s dt
  · obtain ⟨hs1, hc1, he1⟩ := hfire hch
    have hsync : stepSync expd (playingStep expd (dropStep expd s dt) dt) dt =
        playingStep expd (dropStep expd s dt) dt := by
      unfold stepSync
      rw [if_neg (by rw [hs1]; decide)]
    rw [hsync] at hupd
    rw [stepEscape_of_escape _ _ hs1] at hupd
    rcases escapeStep_state_cases (playingStep expd (dropStep expd s dt) dt) dt with hes | hes
    · rw [hs1] at hes
      have hne : ¬ (escapeStep (playingStep expd (dropStep expd s dt) dt) dt).state =
          GameState.gameover := by
        rw [hes]; decide
      have hupd2 : update expd s dt = escapeStep (playingStep expd (dropStep expd s dt) dt) dt := by
        rw [hupd]; unfold stepGameover; rw [if_neg hne]
      rw [hupd2, escapeStep_escapeCharge, hes, hc1]
      refine ⟨Or.inr (Or.inl rfl), fun _ => hch, fun hp => absurd hp (by decide), ?_, ?_⟩
      · exact fun _ _ => ⟨rfl, rfl⟩
      · exact fun hn _ => absurd hch hn
    · have hst : (update expd s dt).state = GameState.gameover := by
        rw [hupd, stepGameover_state]; exact hes
      have hcg : (update expd s dt).escapeCharge = 0 := by
        rw [hupd, stepGameover_escapeCharge, escapeStep_escapeCharge, hc1]
      refine ⟨Or.inr (Or.inr hst), fun hesc => absurd hesc (by rw [hst]; decide),
        fun hp => absurd hp (by rw [hst]; decide), ?_, fun hn _ => absurd hch hn⟩
      intro _ hdur
      have := escapeStep_state_of_lt (playingStep expd (dropStep expd s dt) dt) dt
        (by rw [he1]; linarith)
      rw [this, hs1] at hes
      exact absurd hes (by decide)
  · obtain ⟨hc1, hfs, hnfs⟩ := hnofire hch
    by_cases hfscond : 90 ≤ s.playElapsed + dt
    · have hs1 := hfs hfscond
      have hsync : stepSync expd (playingStep expd (dropStep expd s dt) dt) dt =
          playingStep expd (dropStep expd s dt) dt := by
        unfold stepSync
        rw [if_neg (by rw [hs1]; decide)]
      rw [hsync] at hupd
      rw [stepEscape_of_ne _ _ (by rw [hs1]; decide)] at hupd
      have hst : (update expd s dt).state = GameState.gameover := by
        rw [hupd, stepGameover_state]; exact hs1
      have hcg : (update expd s dt).escapeCharge = chargeAfter s dt := by
        rw [hupd, stepGameover_escapeCharge, hc1]
      refine ⟨Or.inr (Or.inr hst), fun hesc => absurd hesc (by rw [hst]; decide),
        fun hp => absurd hp (by rw [hst]; decide), fun hc _ => absurd hc hch, ?_⟩
      intro _ hlt
      exact absurd hfscond (not_le.mpr hlt)
    · have hs1 := hnfs hfscond
      have hsync : stepSync expd (playingStep expd (dropStep expd s dt) dt) dt =
          syncPose expd (playingStep expd (dropStep expd s dt) dt) dt := by
        unfold stepSync
        rw [if_pos hs1]
      rw [hsync] at hupd
      have hsyncstate : (syncPose expd (playingStep expd (dropStep expd s dt) dt) dt).state =
          GameState.playing := hs1
      rw [stepEscape_of_ne _ _ (by rw [hsyncstate]; decide)] at hupd
      have hst : (update expd s dt).state = GameState.playing := by
        rw [hupd, stepGameover_state]; exact hsyncstate
      have hcg : (update expd s dt).escapeCharge = chargeAfter s dt := by
        rw [hupd, stepGameover_escapeCharge]
        have : (syncPose expd (playingStep expd (dropStep expd s dt) dt) dt).escapeCharge =
            (playingStep expd (dropStep expd s dt) dt).escapeCharge := rfl
        rw [this, hc1]
      refine ⟨Or.inl hst, fun hesc => absurd hesc (by rw [hst]; decide), fun _ => hcg,
        fun hc _ => absurd hc hch, fun _ _ => ⟨hst, hcg⟩⟩

theorem chargeAfter_le (s : MysticGlobeState) (dt a : ℚ) (h : s.state = GameState.playing)
    (hdt : 0 ≤ dt) (h0a : 0 ≤ a) (hca : s.escapeCharge ≤ a) :
    chargeAfter s dt ≤ a + (if aboveFrame s dt then dt else 0) := by
  unfold chargeAfter aboveFrame
  split_ifs with h1 h2 h2
  · linarith
  · exact absurd ⟨h, h1⟩ h2
  · exact absurd h2.2 h1
  · rw [add_zero]
    exact max_le h0a (by linarith)

theorem inv_step (expd : ℚ → ℚ) (s : MysticGlobeState) (dt a : ℚ) (hdt : 0 ≤ dt) (h0a : 0 ≤ a)
    (h1 : s.state = GameState.playing → s.escapeCharge ≤ a)
    (h2 : s.state = GameState.escape → 0.85 ≤ a) :
    ((update expd s dt).state = GameState.playing →
        (update expd s dt).escapeCharge ≤ a + (if aboveFrame s dt then dt else 0)) ∧
      ((update expd s dt).state = GameState.escape →
        0.85 ≤ a + (if aboveFrame s dt then dt else 0)) := by
  cases hs : s.state with
  | idle =>
    have hu := update_state_idle expd s dt hs
    constructor <;> intro hp <;> rw [hu] at hp <;> exact absurd hp (by decide)
  | playing =>
    obtain ⟨_, hesc, hplay, _, _⟩ := update_char_playing expd s dt hs
    have hcb := chargeAfter_le s dt a hs hdt h0a (h1 hs)
    exact ⟨fun hp => le_trans (le_of_eq (hplay hp)) hcb, fun hp => le_trans (hesc hp) hcb⟩
  | escape =>
    obtain ⟨hor, hch⟩ := update_char_escape expd s dt hs
    have hnot : ¬ aboveFrame s dt := fun hab => absurd hab.1 (by rw [hs]; decide)
    rw [if_neg hnot, add_zero]
    constructor
    · intro hp
      rcases hor with he | he <;> rw [hp] at he <;> exact absurd he (by decide)
    · intro _
      exact h2 hs
  | gameover =>
    have hu := update_state_gameover expd s dt hs
    constructor <;> intro hp <;> rw [hu] at hp <;> exact absurd hp (by decide)

theorem inv_fold (expd : ℚ → ℚ) (dts : List ℚ) :
    ∀ (s : MysticGlobeState) (a : ℚ), (∀ d ∈ dts, 0 ≤ d) → 0 ≤ a →
      (s.state = GameState.playing → s.escapeCharge ≤ a) →
      (s.state = GameState.escape → 0.85 ≤ a) →
      ((updates expd s dts).state = GameState.playing →
        (updates expd s dts).escapeCharge ≤ a + aboveTime expd s dts) ∧
      ((updates expd s dts).state = GameState.escape →
        0.85 ≤ a + aboveTime expd s dts) := by
  induction dts with
  | nil =>
    intro s a _ h0a h1 h2
    simpa [updates, aboveTime] using ⟨h1, h2⟩
  | cons dt r ih =>
    intro s a hdts h0a h1 h2
    have hdt : 0 ≤ dt := hdts dt (by simp)
    have hstep := inv_step expd s dt a hdt h0a h1 h2
    have hite : 0 ≤ (if aboveFrame s dt then dt else 0) := by
      split_ifs
      · exact hdt
      · exact le_refl 0
    have hrest := ih (update expd s dt) (a + (if aboveFrame s dt then dt else 0))
      (fun d hd => hdts d (List.mem_cons_of_mem _ hd)) (by linarith) hstep.1 hstep.2
    simpa [updates, aboveTime, add_assoc] using hrest

end MysticGlobe

/-- C1: after any update call the game state is one of the four enumerated
phases; per phase, update can only keep idle idle, keep gameover gameover,
move escape to gameover (after the fixed-length fly-away), and move playing to
escape or gameover; playing moves to escape only when the escape charge
computed that frame reaches the 0.85 s threshold; and over any scripted
sequence of nonnegative frame deltas started in playing with no accumulated
charge, reaching escape forces the total above-threshold time (frames whose
decayed lift is at least 0.92) to be at least the full 0.85 s charge
duration. -/
theorem c1_phase_machine (expd : ℚ → ℚ) :
    (∀ s dt, (MysticGlobe.update expd s dt).state = GameState.idle ∨
        (MysticGlobe.update expd s dt).state = GameState.playing ∨
        (MysticGlobe.update expd s dt).state = GameState.escape ∨
        (MysticGlobe.update expd s dt).state = GameState.gameover) ∧
      (∀ s dt, s.state = GameState.idle →
        (MysticGlobe.update expd s dt).state = GameState.idle) ∧
      (∀ s dt, s.state = GameState.playing →
        (MysticGlobe.update expd s dt).state = GameState.playing ∨
          (MysticGlobe.update expd s dt).state = GameState.escape ∨
          (MysticGlobe.update expd s dt).state = GameState.gameover) ∧
      (∀ s dt, s.state = GameState.escape →
        (MysticGlobe.update expd s dt).state = GameState.escape ∨
          (MysticGlobe.update expd s dt).state = GameState.gameover) ∧
      (∀ s dt, s.state = GameState.gameover →
        (MysticGlobe.update expd s dt).state = GameState.gameover) ∧
      (∀ s dt, s.state = GameState.playing →
        (MysticGlobe.update expd s dt).state = GameState.escape →
          0.85 ≤ MysticGlobe.chargeAfter s dt) ∧
      (∀ s dts, s.state = GameState.playing → s.escapeCharge ≤ 0 → (∀ d ∈ dts, 0 ≤ d) →
        (MysticGlobe.updates expd s dts).state = GameState.escape →
          0.85 ≤ MysticGlobe.aboveTime expd s dts) := by
  refine ⟨?_, ?_, ?_, ?_, ?_, ?_, ?_⟩
  · intro s dt
    cases h : (MysticGlobe.update expd s dt).state
    · exact Or.inl rfl
    · exact Or.inr (Or.inl rfl)
    · exact Or.inr (Or.inr (Or.inl rfl))
    · exact Or.inr (Or.inr (Or.inr rfl))
  · exact fun s dt h => MysticGlobe.update_state_idle expd s dt h
  · exact fun s dt h => (MysticGlobe.update_char_playing expd s dt h).1
  · exact fun s dt h => (MysticGlobe.update_char_escape expd s dt h).1
  · exact fun s dt h => MysticGlobe.update_state_gameover expd s dt h
  · exact fun s dt h hesc => (MysticGlobe.update_char_playing expd s dt h).2.1 hesc
  · intro s dts h hc hdts hesc
    have hfold := MysticGlobe.inv_fold expd dts s 0 hdts (le_refl 0)
      (fun _ => by linarith) (fun habs => by rw [h] at habs; exact absurd habs (by decide))
    have := hfold.2 hesc
    linarith

/-- Witness for C1: from the concrete playing state with full lift and a long
decay hold, the single frame delta 1 drives the world into escape, and the
theorem then forces the accumulated above-threshold time of that trace to
cover the full charge duration. -/
theorem c1_phase_machine_witness :
    0.85 ≤ MysticGlobe.aboveTime halfExp c1TraceState [1] := by
  have hca : MysticGlobe.chargeAfter c1TraceState 1 = 1 := by
    unfold MysticGlobe.chargeAfter MysticGlobe.liftAfter MysticGlobe.liftStep c1TraceState
    norm_num [max_def]
  have hesc : (MysticGlobe.updates halfExp c1TraceState [1]).state = GameState.escape := by
    have h1 : MysticGlobe.updates halfExp c1TraceState [1] =
        MysticGlobe.update halfExp c1TraceState 1 := rfl
    rw [h1]
    exact ((MysticGlobe.update_char_playing halfExp c1TraceState 1 rfl).2.2.2.1
      (by rw [hca]; norm_num) (by norm_num)).1
  exact (c1_phase_machine halfExp).2.2.2.2.2.2 c1TraceState [1] rfl (le_refl 0)
    (by intro d hd; rw [List.mem_singleton] at hd; rw [hd]; norm_num) hesc

/-- C2 (amended): while playing, the escape transition is debounced through the
escape-charge accumulator.  Whenever the decayed lift is below the 0.92
threshold the charge decays at the fixed rate 2.6 per second toward its floor 0
(it strictly decreases while positive; it neither pauses nor resets to zero
instantly); escape can only fire when the accumulated charge reaches 0.85 s,
so one frame can trigger escape only if the prior charge plus that frame's
delta reaches 0.85, and a single frame shorter than 0.85 s starting from no
accumulated charge can never trigger escape. -/
theorem c2_escape_debounced (expd : ℚ → ℚ) :
    (∀ (s : MysticGlobeState) (dt : ℚ), ¬ 0.92 ≤ MysticGlobe.liftAfter s dt →
        MysticGlobe.chargeAfter s dt = max 0 (s.escapeCharge - dt * 2.6)) ∧
      (∀ (s : MysticGlobeState) (dt : ℚ), ¬ 0.92 ≤ MysticGlobe.liftAfter s dt →
        0 < s.escapeCharge → 0 < dt → MysticGlobe.chargeAfter s dt < s.escapeCharge) ∧
      (∀ (s : MysticGlobeState) (dt : ℚ), 0 ≤ dt → 0 ≤ s.escapeCharge →
        s.state = GameState.playing → (MysticGlobe.update expd s dt).state = GameState.escape →
          0.85 ≤ s.escapeCharge + dt) ∧
      (∀ (s : MysticGlobeState) (dt : ℚ), 0 ≤ dt → s.escapeCharge ≤ 0 → dt < 0.85 →
        s.state = GameState.playing →
          (MysticGlobe.update expd s dt).state ≠ GameState.escape) := by
  refine ⟨?_, ?_, ?_, ?_⟩
  · intro s dt h
    unfold MysticGlobe.chargeAfter
    rw [if_neg h]
  · intro s dt h hc hdt
    have hd : MysticGlobe.chargeAfter s dt = max 0 (s.escapeCharge - dt * 2.6) := by
      unfold MysticGlobe.chargeAfter
      rw [if_neg h]
    rw [hd]
    exact max_lt hc (by linarith)
  · intro s dt hdt hc hpl hesc
    have h85 := (MysticGlobe.update_char_playing expd s dt hpl).2.1 hesc
    unfold MysticGlobe.chargeAfter at h85
    split_ifs at h85 with hlift
    · linarith
    · have hb : max 0 (s.escapeCharge - dt * 2.6) ≤ s.escapeCharge + dt :=
        max_le (by linarith) (by linarith)
      linarith
  · intro s dt hdt hc hlt hpl hesc
    have h85 := (MysticGlobe.update_char_playing expd s dt hpl).2.1 hesc
    unfold MysticGlobe.chargeAfter at h85
    split_ifs at h85 with hlift
    · linarith
    · have hb : max 0 (s.escapeCharge - dt * 2.6) ≤ 0 := max_le (le_refl 0) (by linarith)
      linarith

/-- Witness for C2: at the concrete playing state with no lift and no charge,
a half-second frame cannot trigger escape. -/
theorem c2_escape_debounced_witness :
    (MysticGlobe.update halfExp c2FreshState (1/2)).state ≠ GameState.escape :=
  (c2_escape_debounced halfExp).2.2.2 c2FreshState (1/2) (by norm_num) (le_refl 0)
    (by norm_num) rfl

/-- Counterexample for C2 as frozen: on a below-threshold playing frame the
accumulated escape charge does not reset to zero (and does not merely pause
either): from charge one half, a 0.1 s below-threshold frame leaves charge
6/25 = 0.24, which is neither 0 nor the old value 1/2; the code decays the
charge at 2.6 per second instead of resetting it. -/
theorem c2_escape_debounced_counterexample :
    c2BelowState.state = GameState.playing ∧
      MysticGlobe.liftAfter c2BelowState (1/10) < 0.92 ∧
      c2BelowState.escapeCharge = 1/2 ∧
      (MysticGlobe.update halfExp c2BelowState (1/10)).escapeCharge = 6/25 ∧
      (6/25 : ℚ) ≠ 0 ∧ (6/25 : ℚ) ≠ 1/2 := by
  have hlift : MysticGlobe.liftAfter c2BelowState (1/10) < 0.92 := by
    unfold MysticGlobe.liftAfter MysticGlobe.liftStep c2BelowState
    norm_num [max_def]
  have hca : MysticGlobe.chargeAfter c2BelowState (1/10) = 6/25 := by
    unfold MysticGlobe.chargeAfter
    rw [if_neg (not_le.mpr hlift)]
    norm_num [c2BelowState, max_def]
  refine ⟨rfl, hlift, rfl, ?_, by norm_num, by norm_num⟩
  have h := ((MysticGlobe.update_char_playing halfExp c2BelowState (1/10) rfl).2.2.2.2
    (by rw [hca]; norm_num) (by norm_num [c2BelowState])).2
  rw [h, hca]

namespace PerfScaler

theorem ema30Iter_closed (n : ℕ) : ∀ e, ema30Iter n e - 30 = (23/25)^n * (e - 30) := by
  induction n with
  | zero =>
    intro e
    simp [ema30Iter]
  | succ n ih =>
    intro e
    have h1 : ema30Iter (n + 1) e = ema30Iter n (ema30Step e) := rfl
    have h2 : ema30Step e - 30 = 23/25 * (e - 30) := by
      unfold ema30Step lerp
      ring_nf
    have h3 := ih (ema30Step e)
    rw [h1, h3, h2]
    ring

theorem ema60Iter_closed (n : ℕ) : ∀ e, ema60Iter n e - 60 = (23/25)^n * (e - 60) := by
  induction n with
  | zero =>
    intro e
    simp [ema60Iter]
  | succ n ih =>
    intro e
    have h1 : ema60Iter (n + 1) e = ema60Iter n (ema60Step e) := rfl
    have h2 : ema60Step e - 60 = 23/25 * (e - 60) := by
      unfold ema60Step lerp
      ring_nf
    have h3 := ih (ema60Step e)
    rw [h1, h3, h2]
    ring

theorem frame_ema30 (s : PerfScaler) (now : ℚ) (h0 : ¬ s.lastFrame = 0)
    (hsp : now - s.lastFrame = 1/30) : (frame s now).emaFps = ema30Step s.emaFps := by
  have hm : max (0.001:ℚ) (now - s.lastFrame) = 1/30 := by
    rw [hsp]
    norm_num [max_def]
  unfold frame
  rw [if_neg h0]
  dsimp only
  split_ifs <;> (dsimp only; rw [hm]; norm_num [ema30Step, lerp])

theorem frame_ema60 (s : PerfScaler) (now : ℚ) (h0 : ¬ s.lastFrame = 0)
    (hsp : now - s.lastFrame = 1/60) : (frame s now).emaFps = ema60Step s.emaFps := by
  have hm : max (0.001:ℚ) (now - s.lastFrame) = 1/60 := by
    rw [hsp]
    norm_num [max_def]
  unfold frame
  rw [if_neg h0]
  dsimp only
  split_ifs <;> (dsimp only; rw [hm]; norm_num [ema60Step, lerp])

theorem frame_lower_step (s : PerfScaler) (now : ℚ) (h0 : ¬ s.lastFrame = 0)
    (h2 : 2 ≤ now - s.lastEval) (hlow : emaNext s now < 48)
    (hroom : s.minPixelRatio ≤ s.pixelRatio - 0.15) :
    (frame s now).pixelRatio = s.pixelRatio - 0.15 ∧
      ∃ q, (frame s now).changes = s.changes ++ [(s.pixelRatio - 0.15, q)] := by
  have hE : emaNext s now = lerp s.emaFps (1 / max 0.001 (now - s.lastFrame)) 0.08 := rfl
  rw [hE] at hlow
  have hnh : ¬ (57 < lerp s.emaFps (1 / max 0.001 (now - s.lastFrame)) 0.08) := by linarith
  unfold frame
  rw [if_neg h0]
  dsimp only
  rw [if_neg (not_lt.mpr h2)]
  rw [if_pos hlow, if_neg hnh, max_eq_right hroom]
  have habs : s.pixelRatio - 0.15 - s.pixelRatio = -(0.15:ℚ) := by ring
  rw [habs, abs_neg, abs_of_nonneg (by norm_num : (0:ℚ) ≤ 0.15)]
  rw [if_pos (by norm_num : (0.001:ℚ) < 0.15)]
  exact ⟨rfl, _, rfl⟩

theorem frame_raise_step (s : PerfScaler) (now : ℚ) (h0 : ¬ s.lastFrame = 0)
    (h2 : 2 ≤ now - s.lastEval) (hhigh : 57 < emaNext s now)
    (hroom : s.pixelRatio + 0.1 ≤ s.maxPixelRatio) :
    (frame s now).pixelRatio = s.pixelRatio + 0.1 ∧
      ∃ q, (frame s now).changes = s.changes ++ [(s.pixelRatio + 0.1, q)] := by
  have hE : emaNext s now = lerp s.emaFps (1 / max 0.001 (now - s.lastFrame)) 0.08 := rfl
  rw [hE] at hhigh
  unfold frame
  rw [if_neg h0]
  dsimp only
  rw [if_neg (not_lt.mpr h2)]
  rw [if_pos hhigh, min_eq_right hroom]
  have habs : s.pixelRatio + 0.1 - s.pixelRatio = (0.1:ℚ) := by ring
  rw [habs, abs_of_nonneg (by norm_num : (0:ℚ) ≤ 0.1)]
  rw [if_pos (by norm_num : (0.001:ℚ) < 0.1)]
  exact ⟨rfl, _, rfl⟩

theorem frame_raise_clamp (s : PerfScaler) (now : ℚ) (h0 : ¬ s.lastFrame = 0)
    (h2 : 2 ≤ now - s.lastEval) (hhigh : 57 < emaNext s now)
    (hclose : s.maxPixelRatio < s.pixelRatio + 0.1)
    (hgap : s.pixelRatio + 0.001 < s.maxPixelRatio) :
    (frame s now).pixelRatio = s.maxPixelRatio ∧
      s.maxPixelRatio - s.pixelRatio < 0.1 := by
  have hE : emaNext s now = lerp s.emaFps (1 / max 0.001 (now - s.lastFrame)) 0.08 := rfl
  rw [hE] at hhigh
  unfold frame
  rw [if_neg h0]
  dsimp only
  rw [if_neg (not_lt.mpr h2)]
  rw [if_pos hhigh, min_eq_left (le_of_lt hclose)]
  rw [abs_of_nonneg (by linarith : (0:ℚ) ≤ s.maxPixelRatio - s.pixelRatio)]
  rw [if_pos (by linarith : (0.001:ℚ) < s.maxPixelRatio - s.pixelRatio)]
  exact ⟨rfl, by linarith⟩

theorem frame_lower_clamp (s : PerfScaler) (now : ℚ) (h0 : ¬ s.lastFrame = 0)
    (h2 : 2 ≤ now - s.lastEval) (hlow : emaNext s now < 48)
    (hclose : s.pixelRatio - 0.15 < s.minPixelRatio)
    (hgap : s.minPixelRatio + 0.001 < s.pixelRatio) :
    (frame s now).pixelRatio = s.minPixelRatio ∧
      s.pixelRatio - s.minPixelRatio < 0.15 := by
  have hE : emaNext s now = lerp s.emaFps (1 / max 0.001 (now - s.lastFrame)) 0.08 := rfl
  rw [hE] at hlow
  have hnh : ¬ (57 < lerp s.emaFps (1 / max 0.001 (now - s.lastFrame)) 0.08) := by linarith
  unfold frame
  rw [if_neg h0]
  dsimp only
  rw [if_neg (not_lt.mpr h2)]
  rw [if_pos hlow, if_neg hnh, max_eq_left (le_of_lt hclose)]
  have habs : s.minPixelRatio - s.pixelRatio = -(s.pixelRatio - s.minPixelRatio) := by ring
  rw [habs, abs_neg, abs_of_nonneg (by linarith : (0:ℚ) ≤ s.pixelRatio - s.minPixelRatio)]
  rw [if_pos (by linarith : (0.001:ℚ) < s.pixelRatio - s.minPixelRatio)]
  exact ⟨rfl, by linarith⟩

theorem frame_ceiling_idem (s : PerfScaler) (now : ℚ) (h0 : ¬ s.lastFrame = 0)
    (h2 : 2 ≤ now - s.lastEval) (hhigh : 57 < emaNext s now)
    (heq : s.pixelRatio = s.maxPixelRatio) :
    (frame s now).pixelRatio = s.pixelRatio ∧
      (frame s now).qualityLevel = s.qualityLevel ∧
      (frame s now).changes = s.changes := by
  have hE : emaNext s now = lerp s.emaFps (1 / max 0.001 (now - s.lastFrame)) 0.08 := rfl
  rw [hE] at hhigh
  unfold frame
  rw [if_neg h0]
  dsimp only
  rw [if_neg (not_lt.mpr h2)]
  rw [if_pos hhigh, heq, min_eq_left (by linarith : s.maxPixelRatio ≤ s.maxPixelRatio + 0.1)]
  have habs : s.maxPixelRatio - s.maxPixelRatio = (0:ℚ) := by ring
  rw [habs, abs_zero]
  rw [if_neg (by norm_num : ¬ ((0.001:ℚ) < 0))]
  exact ⟨rfl, rfl, rfl⟩

theorem frame_floor_idem (s : PerfScaler) (now : ℚ) (h0 : ¬ s.lastFrame = 0)
    (h2 : 2 ≤ now - s.lastEval) (hlow : emaNext s now < 48)
    (heq : s.pixelRatio = s.minPixelRatio) :
    (frame s now).pixelRatio = s.pixelRatio ∧
      (frame s now).qualityLevel = s.qualityLevel ∧
      (frame s now).changes = s.changes := by
  have hE : emaNext s now = lerp s.emaFps (1 / max 0.001 (now - s.lastFrame)) 0.08 := rfl
  rw [hE] at hlow
  have hnh : ¬ (57 < lerp s.emaFps (1 / max 0.001 (now - s.lastFrame)) 0.08) := by linarith
  unfold frame
  rw [if_neg h0]
  dsimp only
  rw [if_neg (not_lt.mpr h2)]
  rw [if_pos hlow, if_neg hnh, heq,
    max_eq_left (by linarith : s.minPixelRatio - 0.15 ≤ s.minPixelRatio)]
  have habs : s.minPixelRatio - s.minPixelRatio = (0:ℚ) := by ring
  rw [habs, abs_zero]
  rw [if_neg (by norm_num : ¬ ((0.001:ℚ) < 0))]
  exact ⟨rfl, rfl, rfl⟩

end PerfScaler

/-- C5 (amended): at the shipped configuration an evaluation under a sustained
low EMA lowers the pixel ratio by exactly 0.15 while a full step remains above
the floor and under a sustained high EMA raises it by exactly 0.1 while a full
step remains below the ceiling (firing the callback); the final raising (or
lowering) evaluation clamps to the ceiling (or floor) with a strictly smaller
step; at the ceiling (or floor) further evaluations leave the ratio, the
quality level and the callback log unchanged; and with constant synthetic
30 FPS (or 60 FPS) frame spacing the EMA follows the lerp recurrence and drops
below the low threshold within 60 frames (or exceeds the high threshold within
84 frames), so the stepping eventually begins. -/
theorem c5_step_per_evaluation :
    (∀ (s : PartyInvite.PerfScaler) (now : ℚ), ¬ s.lastFrame = 0 → 2 ≤ now - s.lastEval →
        PerfScaler.emaNext s now < 48 → s.minPixelRatio ≤ s.pixelRatio - 0.15 →
        (PerfScaler.frame s now).pixelRatio = s.pixelRatio - 0.15 ∧
          ∃ q, (PerfScaler.frame s now).changes = s.changes ++ [(s.pixelRatio - 0.15, q)]) ∧
      (∀ (s : PartyInvite.PerfScaler) (now : ℚ), ¬ s.lastFrame = 0 → 2 ≤ now - s.lastEval →
        57 < PerfScaler.emaNext s now → s.pixelRatio + 0.1 ≤ s.maxPixelRatio →
        (PerfScaler.frame s now).pixelRatio = s.pixelRatio + 0.1 ∧
          ∃ q, (PerfScaler.frame s now).changes = s.changes ++ [(s.pixelRatio + 0.1, q)]) ∧
      (∀ (s : PartyInvite.PerfScaler) (now : ℚ), ¬ s.lastFrame = 0 → 2 ≤ now - s.lastEval →
        57 < PerfScaler.emaNext s now → s.maxPixelRatio < s.pixelRatio + 0.1 →
        s.pixelRatio + 0.001 < s.maxPixelRatio →
        (PerfScaler.frame s now).pixelRatio = s.maxPixelRatio ∧
          s.maxPixelRatio - s.pixelRatio < 0.1) ∧
      (∀ (s : PartyInvite.PerfScaler) (now : ℚ), ¬ s.lastFrame = 0 → 2 ≤ now - s.lastEval →
        PerfScaler.emaNext s now < 48 → s.pixelRatio - 0.15 < s.minPixelRatio →
        s.minPixelRatio + 0.001 < s.pixelRatio →
        (PerfScaler.frame s now).pixelRatio = s.minPixelRatio ∧
          s.pixelRatio - s.minPixelRatio < 0.15) ∧
      (∀ (s : PartyInvite.PerfScaler) (now : ℚ), ¬ s.lastFrame = 0 → 2 ≤ now - s.lastEval →
        57 < PerfScaler.emaNext s now → s.pixelRatio = s.maxPixelRatio →
        (PerfScaler.frame s now).pixelRatio = s.pixelRatio ∧
          (PerfScaler.frame s now).qualityLevel = s.qualityLevel ∧
          (PerfScaler.frame s now).changes = s.changes) ∧
      (∀ (s : PartyInvite.PerfScaler) (now : ℚ), ¬ s.lastFrame = 0 → 2 ≤ now - s.lastEval →
        PerfScaler.emaNext s now < 48 → s.pixelRatio = s.minPixelRatio →
        (PerfScaler.frame s now).pixelRatio = s.pixelRatio ∧
          (PerfScaler.frame s now).qualityLevel = s.qualityLevel ∧
          (PerfScaler.frame s now).changes = s.changes) ∧
      (∀ (s : PartyInvite.PerfScaler) (now : ℚ), ¬ s.lastFrame = 0 → now - s.lastFrame = 1/30 →
        (PerfScaler.frame s now).emaFps = PerfScaler.ema30Step s.emaFps) ∧
      (∀ e : ℚ, e ≤ 60 → PerfScaler.ema30Iter 60 e < 48) ∧
      (∀ (s : PartyInvite.PerfScaler) (now : ℚ), ¬ s.lastFrame = 0 → now - s.lastFrame = 1/60 →
        (PerfScaler.frame s now).emaFps = PerfScaler.ema60Step s.emaFps) ∧
      (∀ e : ℚ, 0 ≤ e → 57 < PerfScaler.ema60Iter 84 e) := by
  refine ⟨PerfScaler.frame_lower_step, PerfScaler.frame_raise_step, PerfScaler.frame_raise_clamp,
    PerfScaler.frame_lower_clamp, PerfScaler.frame_ceiling_idem, PerfScaler.frame_floor_idem,
    PerfScaler.frame_ema30, ?_, PerfScaler.frame_ema60, ?_⟩
  · intro e he
    have hc := PerfScaler.ema30Iter_closed 60 e
    have hpow : (0:ℚ) < (23/25)^60 := by positivity
    have hb : (23/25:ℚ)^60 * (e - 30) ≤ (23/25)^60 * 30 :=
      mul_le_mul_of_nonneg_left (by linarith) (le_of_lt hpow)
    have hnum : (23/25:ℚ)^60 * 30 < 18 := by norm_num
    linarith
  · intro e he
    have hc := PerfScaler.ema60Iter_closed 84 e
    have hpow : (0:ℚ) < (23/25)^84 := by positivity
    have hb : (23/25:ℚ)^84 * (-60) ≤ (23/25)^84 * (e - 60) :=
      mul_le_mul_of_nonneg_left (by linarith) (le_of_lt hpow)
    have hnum : (23/25:ℚ)^84 * 60 < 3 := by norm_num
    nlinarith

/-- Witness for C5 (amended): at the concrete near-ceiling scaler snapshot
(pixel ratio 1.45, bounds 0.75/1.5, sustained 60 FPS) the next due evaluation
clamps the pixel ratio to the ceiling 1.5 with a step smaller than 0.1. -/
theorem c5_step_per_evaluation_witness :
    (PerfScaler.frame c5NearCeilState (10 + 1/60)).pixelRatio = c5NearCeilState.maxPixelRatio ∧
      c5NearCeilState.maxPixelRatio - c5NearCeilState.pixelRatio < 0.1 :=
  c5_step_per_evaluation.2.2.1 c5NearCeilState (10 + 1/60)
    (by norm_num [c5NearCeilState])
    (by norm_num [c5NearCeilState])
    (by norm_num [c5NearCeilState, PerfScaler.emaNext, lerp, max_def])
    (by norm_num [c5NearCeilState])
    (by norm_num [c5NearCeilState])

/-- Counterexample for C5 as frozen: under a sustained 60 FPS EMA, from the
reachable pixel ratio 1.45 (the floor 0.75 plus seven raising steps of 0.1)
with the shipped bounds, the evaluation due at timestamp 10 + 1/60 raises the
pixel ratio to the ceiling 1.5 — an increment of exactly 1/20, not the claimed
fixed step of 0.1, even though the ratio had not yet reached the ceiling. -/
theorem c5_step_per_evaluation_counterexample :
    c5NearCeilState.pixelRatio < c5NearCeilState.maxPixelRatio ∧
      57 < PerfScaler.emaNext c5NearCeilState (10 + 1/60) ∧
      (PerfScaler.frame c5NearCeilState (10 + 1/60)).pixelRatio = 1.5 ∧
      (PerfScaler.frame c5NearCeilState (10 + 1/60)).pixelRatio -
          c5NearCeilState.pixelRatio = 1/20 ∧
      (1/20 : ℚ) ≠ 0.1 := by
  have hpr := PerfScaler.frame_raise_clamp c5NearCeilState (10 + 1/60)
    (by norm_num [c5NearCeilState])
    (by norm_num [c5NearCeilState])
    (by norm_num [c5NearCeilState, PerfScaler.emaNext, lerp, max_def])
    (by norm_num [c5NearCeilState])
    (by norm_num [c5NearCeilState])
  refine ⟨by norm_num [c5NearCeilState], ?_, ?_, ?_, by norm_num⟩
  · norm_num [c5NearCeilState, PerfScaler.emaNext, lerp, max_def]
  · rw [hpr.1]
    norm_num [c5NearCeilState]
  · rw [hpr.1]
    norm_num [c5NearCeilState]

/-- C6: recenter() always zeroes the vertical velocity and every lift/charge
related scalar and repositions the player exactly at the baseline altitude,
for every prior game state and every prior value of the kinematic variables
(the game phase itself is untouched). -/
theorem c6_recenter_resets (s : MysticGlobeState) :
    (MysticGlobe.recenter s).yVel = 0 ∧
      (MysticGlobe.recenter s).lift = 0 ∧
      (MysticGlobe.recenter s).liftDecayHold = 0 ∧
      (MysticGlobe.recenter s).enginePulse = 0 ∧
      (MysticGlobe.recenter s).escapeCharge = 0 ∧
      (MysticGlobe.recenter s).smoothPitch = 0 ∧
      (MysticGlobe.recenter s).y = MysticGlobe.baseY ∧
      (MysticGlobe.recenter s).targetAltitude = MysticGlobe.baseY ∧
      (MysticGlobe.recenter s).state = s.state :=
  ⟨rfl, rfl, rfl, rfl, rfl, rfl, rfl, rfl, rfl⟩

theorem xfadeStep_untouched (L seam : ℕ) (d : ℕ → ℝ) (j p : ℕ)
    (hp1 : p ≠ j) (hp2 : p ≠ L - seam + j) : xfadeStep L seam d j p = d p := by
  unfold xfadeStep
  rw [Function.update_noteq hp2, Function.update_noteq hp1]

theorem xfadeStep_writes (L seam : ℕ) (d : ℕ → ℝ) (j : ℕ) (hne : j ≠ L - seam + j) :
    xfadeStep L seam d j j = xfadeStep L seam d j (L - seam + j) := by
  unfold xfadeStep
  rw [Function.update_noteq hne, Function.update_same, Function.update_same]

theorem xfadeLoop_eq (L seam : ℕ) (d : ℕ → ℝ) (h2 : 2 * seam ≤ L) (i : ℕ) (hi : i < seam) :
    ∀ n, i < n → n ≤ seam →
      xfadeLoop L seam d n i = xfadeLoop L seam d n (L - seam + i) := by
  intro n
  induction n with
  | zero =>
    intro hin _
    exact absurd hin (Nat.not_lt_zero i)
  | succ n ih =>
    intro hin hns
    by_cases hni : i < n
    · have e1 : xfadeLoop L seam d (n + 1) i = xfadeLoop L seam d n i :=
        xfadeStep_untouched L seam _ n i (by omega) (by omega)
      have e2 : xfadeLoop L seam d (n + 1) (L - seam + i) =
          xfadeLoop L seam d n (L - seam + i) :=
        xfadeStep_untouched L seam _ n (L - seam + i) (by omega) (by omega)
      rw [e1, e2]
      exact ih hni (by omega)
    · have hieq : i = n := by omega
      subst hieq
      exact xfadeStep_writes L seam _ i (by omega)

theorem crossfade_seam (L seam : ℕ) (d : ℕ → ℝ) (h2 : 2 * seam ≤ L) (i : ℕ) (hi : i < seam) :
    crossfade L seam d i = crossfade L seam d (L - seam + i) :=
  xfadeLoop_eq L seam d h2 i hi seam hi (le_refl seam)

theorem intToNat_cast (z : ℤ) (hz : 0 ≤ z) : ((z.toNat : ℕ) : ℚ) = ((z : ℤ) : ℚ) := by
  exact_mod_cast Int.toNat_of_nonneg hz

theorem jsRound_max1_lower (q : ℚ) (hq : 0 ≤ q) :
    q - 1/2 ≤ ((max 1 (jsRound q).toNat : ℕ) : ℚ) := by
  have hnn : 0 ≤ Int.floor (q + 1/2) := Int.floor_nonneg.mpr (by linarith)
  have h1 : q - 1/2 ≤ ((Int.floor (q + 1/2) : ℤ) : ℚ) := by
    have := Int.sub_one_lt_floor (q + 1/2)
    linarith
  have h3 : (((Int.floor (q + 1/2)).toNat : ℕ) : ℚ) ≤
      ((max 1 (Int.floor (q + 1/2)).toNat : ℕ) : ℚ) := by
    exact_mod_cast Nat.le_max_right 1 _
  unfold jsRound
  rw [intToNat_cast _ hnn] at h3
  linarith

theorem step16_lower (sr : ℕ) :
    ((sr : ℚ) * 60) / (155 * 4) - 1/2 ≤ (step16Samples sr : ℚ) :=
  jsRound_max1_lower (((sr : ℚ) * 60) / (155 * 4)) (by positivity)

theorem step16_ge_one (sr : ℕ) : 1 ≤ step16Samples sr := Nat.le_max_left _ _

theorem ambientLength_cast (sr : ℕ) :
    (ambientLength sr : ℚ) = 128 * (step16Samples sr : ℚ) := by
  unfold ambientLength
  push_cast
  ring

theorem two_seam_le (sr : ℕ) : 2 * ambientSeam sr ≤ ambientLength sr := by
  have hstep : 1 ≤ step16Samples sr := step16_ge_one sr
  have hL : 128 ≤ ambientLength sr := by
    unfold ambientLength
    calc (128:ℕ) = 16 * 8 * 1 := by norm_num
      _ ≤ 16 * 8 * step16Samples sr := Nat.mul_le_mul_left _ hstep
  by_cases hsr : sr < 40
  · have hq2 : ((sr : ℚ) * 0.05) < 2 := by
      have hc : (sr:ℚ) < 40 := by exact_mod_cast hsr
      nlinarith
    have hfl : Int.floor ((sr:ℚ) * 0.05) < 2 := by
      rw [Int.floor_lt]
      exact_mod_cast hq2
    have hf : (Int.floor ((sr : ℚ) * 0.05)).toNat ≤ 1 := by omega
    have hmin : min (ambientLength sr) (Int.floor ((sr : ℚ) * 0.05)).toNat ≤ 1 :=
      le_trans (min_le_right _ _) hf
    have hseam : ambientSeam sr ≤ 1 := by
      unfold ambientSeam
      exact max_le (le_refl 1) hmin
    omega
  · push_neg at hsr
    have h40 : (40:ℚ) ≤ (sr:ℚ) := by exact_mod_cast hsr
    have hfnn : 0 ≤ Int.floor ((sr:ℚ) * 0.05) := Int.floor_nonneg.mpr (by positivity)
    have hfle : (((Int.floor ((sr:ℚ) * 0.05)).toNat : ℕ) : ℚ) ≤ (sr : ℚ) * 0.05 := by
      rw [intToNat_cast _ hfnn]
      exact Int.floor_le _
    have hlen : 128 * (((sr : ℚ) * 60) / (155 * 4) - 1/2) ≤ (ambientLength sr : ℚ) := by
      rw [ambientLength_cast]
      have := step16_lower sr
      nlinarith
    have hq : 2 * (((Int.floor ((sr:ℚ) * 0.05)).toNat : ℕ) : ℚ) ≤ (ambientLength sr : ℚ) := by
      nlinarith [hfle, hlen, h40]
    have hnat : 2 * (Int.floor ((sr:ℚ) * 0.05)).toNat ≤ ambientLength sr := by
      exact_mod_cast hq
    have hseam_le : ambientSeam sr ≤ (Int.floor ((sr:ℚ) * 0.05)).toNat := by
      have hf2 : 2 ≤ (Int.floor ((sr:ℚ) * 0.05)).toNat := by
        have h2q : (2:ℚ) ≤ (sr:ℚ) * 0.05 := by nlinarith
        have h2' : (2:ℤ) ≤ Int.floor ((sr:ℚ) * 0.05) := Int.le_floor.mpr (by exact_mod_cast h2q)
        omega
      unfold ambientSeam
      exact max_le (by omega) (min_le_right _ _)
    omega

/-- C7: in each channel of the generated ambient loop buffer, after the
equal-power crossfade pass the first seam samples are exactly equal to the
corresponding last seam samples (hence within any floating tolerance): the
loop writes the same mixed value to both positions, and later iterations never
touch the positions of earlier ones because the buffer is longer than twice
the seam for every sample rate. -/
theorem c7_loop_seam_matches (sr : ℕ) (d : ℕ → ℝ) (i : ℕ) (hi : i < ambientSeam sr) :
    crossfade (ambientLength sr) (ambientSeam sr) d i =
      crossfade (ambientLength sr) (ambientSeam sr) d (ambientLength sr - ambientSeam sr + i) :=
  crossfade_seam (ambientLength sr) (ambientSeam sr) d (two_seam_le sr) i hi

/-- Witness for C7: at the standard 48 kHz sample rate and the constant-one
channel, the first seam sample equals the matching last seam sample. -/
theorem c7_loop_seam_matches_witness :
    crossfade (ambientLength 48000) (ambientSeam 48000) (fun _ => (1:ℝ)) 0 =
      crossfade (ambientLength 48000) (ambientSeam 48000) (fun _ => (1:ℝ))
        (ambientLength 48000 - ambientSeam 48000 + 0) :=
  c7_loop_seam_matches 48000 (fun _ => (1:ℝ)) 0
    (Nat.lt_of_lt_of_le Nat.zero_lt_one (Nat.le_max_left _ _))

/-- C8: the audio loader never surfaces an error: whatever the outcome of each
fetch/decode attempt (exception-free non-ok response, network exception, decode
exception, or success), tryLoadAudioFile swallows failures into none and
loadWithFallback always returns a usable buffer, substituting the generated
loop exactly when no file could be loaded. -/
theorem c8_load_never_fails :
    (∀ (env : Option PartyInvite.FetchOutcome) (fo : PartyInvite.FetchOutcome),
        (∃ d, loadWithFallback env fo = (LoadedBuffer.fromFile d, BufferKind.file)) ∨
          loadWithFallback env fo = (LoadedBuffer.generatedLoop, BufferKind.generated)) ∧
      tryLoadAudioFile FetchOutcome.httpNotOk = none ∧
      tryLoadAudioFile FetchOutcome.networkError = none ∧
      tryLoadAudioFile FetchOutcome.decodeError = none ∧
      (∀ d, tryLoadAudioFile (FetchOutcome.ok d) = some d) ∧
      loadWithFallback (some FetchOutcome.networkError) FetchOutcome.decodeError =
        (LoadedBuffer.generatedLoop, BufferKind.generated) ∧
      loadWithFallback none FetchOutcome.httpNotOk =
        (LoadedBuffer.generatedLoop, BufferKind.generated) := by
  refine ⟨?_, rfl, rfl, rfl, fun d => rfl, rfl, rfl⟩
  intro env fo
  rcases env with _ | o
  · rcases fo with d | _ | _ | _
    · exact Or.inl ⟨d, rfl⟩
    · exact Or.inr rfl
    · exact Or.inr rfl
    · exact Or.inr rfl
  · rcases o with d | _ | _ | _
    · exact Or.inl ⟨d, rfl⟩
    all_goals rcases fo with d | _ | _ | _
    all_goals first
      | exact Or.inl ⟨d, rfl⟩
      | exact Or.inr rfl

/-- C9 (code bug): the render loop of WinterMysticExperience invokes
setThrusting on the world object, but setThrusting is not among the members of
the object returned by createMysticGlobeWorld; every other used member is
present.  So the claim that every invoked world method resolves to a defined
function is violated by the code at exactly this member. -/
theorem c9_setThrusting_missing :
    "setThrusting" ∈ experienceWorldMemberUses ∧
      "setThrusting" ∉ mysticGlobeWorldMembers ∧
      ∀ m ∈ experienceWorldMemberUses, m ≠ "setThrusting" → m ∈ mysticGlobeWorldMembers := by
  decide

/-- Witness for C9's bounded quantifier: a concrete used member other than
setThrusting is indeed present on the returned world object. -/
theorem c9_setThrusting_missing_witness : "update" ∈ mysticGlobeWorldMembers :=
  c9_setThrusting_missing.2.2 "update" (by decide) (by decide)

/-- C10: startup throws synchronously (modelled by Except.error) when either
required DOM node is absent, before constructing the app, and constructs the
app without an error when both are present. -/
theorem c10_dom_guard :
    (∀ uiRoot, mainStartup none uiRoot =
        Except.error "Missing required DOM elements (#scene, #ui-root).") ∧
      (∀ canvas, mainStartup canvas none =
        Except.error "Missing required DOM elements (#scene, #ui-root).") ∧
      ∀ c u, mainStartup (some c) (some u) = Except.ok (createApp c u) := by
  refine ⟨fun uiRoot => ?_, fun canvas => ?_, fun c u => rfl⟩
  · rcases uiRoot with _ | u <;> rfl
  · rcases canvas with _ | c <;> rfl

end PartyInvite
